import Mathlib

/-!
Verification development for the WhatsApp lead-qualification bot.

The definitions below are a shallow embedding of the slot-filling core of the
repository: the conversation-state dict and the merge of extracted updates
(src/ai_langchain.py, IntelligentLeadQualificationChatbot), the completion
checker and next-question selector (IntelligentSlotFiller), the last-bot-
question scan, the HubSpot contact-update firstname computation
(src/hubspot_manager.py), the Cosmos DB serialization round trip and the
single-message append (src/state_management.py).

Python values flowing through these functions are modelled by small inductive
value types; Python dicts are modelled as association lists with unique keys in
insertion order, looked up by first match.
-/

namespace WhatsappBot

/-- Machinery-type enumeration, from MaquinariaType in src/state_management.py
lines 8-17. In Python this is a str-mixin Enum whose members carry the string
values given by MaquinariaType.value below. -/
inductive MaquinariaType where
  | SOLDADORAS
  | COMPRESOR
  | TORRE_ILUMINACION
  | PLATAFORMA
  | GENERADORES
  | ROMPEDORES
  | APISONADOR
  | MONTACARGAS
  | MANIPULADOR
deriving DecidableEq, Repr

/-- String value of each enum member, as in src/state_management.py. -/
def MaquinariaType.value : MaquinariaType → String
  | .SOLDADORAS => "soldadora"
  | .COMPRESOR => "compresor"
  | .TORRE_ILUMINACION => "torre_iluminacion"
  | .PLATAFORMA => "plataforma"
  | .GENERADORES => "generador"
  | .ROMPEDORES => "rompedor"
  | .APISONADOR => "apisonador"
  | .MONTACARGAS => "montacargas"
  | .MANIPULADOR => "manipulador"

/-- Python MaquinariaType(s): member lookup by value; a value matching no
member raises ValueError, modelled as none (every call site of the lookup in
the sources catches ValueError). -/
def MaquinariaType.ofValue? (s : String) : Option MaquinariaType :=
  if s = "soldadora" then some .SOLDADORAS
  else if s = "compresor" then some .COMPRESOR
  else if s = "torre_iluminacion" then some .TORRE_ILUMINACION
  else if s = "plataforma" then some .PLATAFORMA
  else if s = "generador" then some .GENERADORES
  else if s = "rompedor" then some .ROMPEDORES
  else if s = "apisonador" then some .APISONADOR
  else if s = "montacargas" then some .MONTACARGAS
  else if s = "manipulador" then some .MANIPULADOR
  else none

/-- JSON-style value stored inside the detalles_maquinaria sub-map. -/
inductive DVal where
  | dnull
  | dstr (s : String)
  | dbool (b : Bool)
deriving DecidableEq, Repr

/-- Value stored under a top-level key of the conversation-state dict. -/
inductive SVal where
  | snull
  | sstr (s : String)
  | sbool (b : Bool)
  | senum (t : MaquinariaType)
  | sdict (d : List (String × DVal))
deriving DecidableEq, Repr

/-- Value appearing in an extraction-result update map (parsed LLM JSON). -/
inductive UVal where
  | unull
  | ustr (s : String)
  | ubool (b : Bool)
  | udict (d : List (String × DVal))
deriving DecidableEq, Repr

/-- Python truthiness of a detail value. -/
def DVal.truthy : DVal → Bool
  | .dnull => false
  | .dstr s => s != ""
  | .dbool b => b

/-- Python truthiness of a state value (str-mixin enum members are non-empty
strings, hence truthy). -/
def SVal.truthy : SVal → Bool
  | .snull => false
  | .sstr s => s != ""
  | .sbool b => b
  | .senum _ => true
  | .sdict d => !d.isEmpty

/-- Python truthiness of an update value. -/
def UVal.truthy : UVal → Bool
  | .unull => false
  | .ustr s => s != ""
  | .ubool b => b
  | .udict d => !d.isEmpty

/-- Python equality of a state value against a string literal; a str-mixin
enum member compares equal to its value, no other shapes equal a string. -/
def SVal.pyEqStr : SVal → String → Bool
  | .sstr s, t => s == t
  | .senum m, t => m.value == t
  | _, _ => false

/-- Membership of a current value in the skip list
of _update_state_with_extracted_info, which holds the two sentinel strings,
None and the empty string. -/
def SVal.inSkipList : SVal → Bool
  | .snull => true
  | v => v.pyEqStr "No especificado" || v.pyEqStr "No tiene" || v.pyEqStr ""

/-- Membership in the two-string sentinel list used by the selector and the
completion checker. -/
def SVal.isSentinel (v : SVal) : Bool :=
  v.pyEqStr "No tiene" || v.pyEqStr "No especificado"

/-- The conversation-state dict (Python dict keyed by strings, insertion
order, unique keys), modelled as an association list with first-match
lookup. -/
abbrev ConvState := List (String × SVal)

/-- Dict lookup (first match), Python state.get(key). -/
def getKey : ConvState → String → Option SVal
  | [], _ => none
  | (k, v) :: rest, f => if k == f then some v else getKey rest f

/-- Dict write, Python state[key] = w: replace in place, else append. -/
def setKey : ConvState → String → SVal → ConvState
  | [], f, w => [(f, w)]
  | (k, v) :: rest, f, w =>
      if k == f then (k, w) :: rest else (k, v) :: setKey rest f w

/-- Lookup in the detalles_maquinaria sub-map. -/
def dgetKey : List (String × DVal) → String → Option DVal
  | [], _ => none
  | (k, v) :: rest, f => if k == f then some v else dgetKey rest f

/-- Write into the detalles_maquinaria sub-map. -/
def dsetKey : List (String × DVal) → String → DVal → List (String × DVal)
  | [], f, w => [(f, w)]
  | (k, v) :: rest, f, w =>
      if k == f then (k, w) :: rest else (k, v) :: dsetKey rest f w

/-- Python d0.update(d): write every entry of d into d0, in order. -/
def dictUpdate (d0 d : List (String × DVal)) : List (String × DVal) :=
  d.foldl (fun acc p => dsetKey acc p.1 p.2) d0

/-- Conversion of a JSON update value into a stored state value, as performed
by the direct-assignment branch of the merge. -/
def UVal.toSVal : UVal → SVal
  | .unull => .snull
  | .ustr s => .sstr s
  | .ubool b => .sbool b
  | .udict d => .sdict d

/-- One iteration of the loop of
IntelligentLeadQualificationChatbot._update_state_with_extracted_info
(src/ai_langchain.py lines 1049-1082) for the entry (key, value):
null or empty-string values are skipped; a key other than
detalles_maquinaria whose current value is truthy and outside the skip list
is not overwritten; a dict value for detalles_maquinaria is merged into the
current sub-map with dict.update; a tipo_maquinaria value is parsed into the
enum, an unparsable value being skipped (ValueError handler); every other
entry is written directly. The result none models the uncaught
AttributeError raised when a dict update meets a non-dict current
detalles_maquinaria value. The if/elif/else chain of the source is
dispatched here on the constructor of the value first, which is
behaviourally identical: the source dict branch fires only for a dict value,
and the Python enum constructor rejects every non-string value with
ValueError (its TypeError fallback scans the members and fails), which the
except handler of the source turns into a skip. The no-overwrite test is
split out as skipCond. -/
def skipCond (st : ConvState) (key : String) : Bool :=
  key != "detalles_maquinaria" && ((getKey st key).elim false SVal.truthy) &&
    !((getKey st key).elim false SVal.inSkipList)

/-- The loop body of _update_state_with_extracted_info; see the comment on
skipCond above. -/
def applyEntry (st : ConvState) (key : String) (value : UVal) : Option ConvState :=
  if value == UVal.unull || value == UVal.ustr "" then some st
  else
    let current := getKey st key
    if skipCond st key then
      some st
    else
      match value with
      | UVal.udict d =>
          if key == "detalles_maquinaria" then
            match current with
            | none => some (setKey st key (SVal.sdict (dictUpdate [] d)))
            | some (SVal.sdict d0) => some (setKey st key (SVal.sdict (dictUpdate d0 d)))
            | some _ => none
          else if key == "tipo_maquinaria" then some st
          else some (setKey st key (SVal.sdict d))
      | UVal.ustr s =>
          if key == "tipo_maquinaria" then
            match MaquinariaType.ofValue? s with
            | some t => some (setKey st key (SVal.senum t))
            | none => some st
          else some (setKey st key (SVal.sstr s))
      | UVal.ubool b =>
          if key == "tipo_maquinaria" then some st
          else some (setKey st key (SVal.sbool b))
      | UVal.unull => some st

/-- The merge of a whole extracted-info map into the state: the loop of
_update_state_with_extracted_info over the entries in order, propagating an
uncaught exception as none. This is the operation the specification calls
apply(record, update_map). -/
def applyUpdate : ConvState → List (String × UVal) → Option ConvState
  | st, [] => some st
  | st, (k, v) :: rest =>
      match applyEntry st k v with
      | none => none
      | some st1 => applyUpdate st1 rest

/-- The empty conversation state of
IntelligentLeadQualificationChatbot._create_empty_state
(src/ai_langchain.py lines 852-870), in source key order; the messages list
is modelled separately as a list of ChatMsg, all other keys are kept here. -/
def emptyState : ConvState :=
  [("nombre", SVal.snull),
   ("tipo_maquinaria", SVal.snull),
   ("detalles_maquinaria", SVal.sdict []),
   ("sitio_web", SVal.snull),
   ("uso_empresa_o_venta", SVal.snull),
   ("nombre_completo", SVal.snull),
   ("nombre_empresa", SVal.snull),
   ("giro_empresa", SVal.snull),
   ("correo", SVal.snull),
   ("telefono", SVal.snull),
   ("completed", SVal.sbool false),
   ("lugar_requerimiento", SVal.snull),
   ("conversation_mode", SVal.sstr "bot"),
   ("asignado_asesor", SVal.snull)]

/-- Python "c in s" for a single character, over the character data. -/
def pyContains (s : String) (c : Char) : Bool := s.data.contains c

/-- Splitting a character list on a separator character, Python style: a
separator at the end yields a trailing empty segment. -/
def splitListOn (c : Char) : List Char → List Char → List (List Char)
  | acc, [] => [acc.reverse]
  | acc, x :: xs =>
      if x == c then acc.reverse :: splitListOn c [] xs
      else splitListOn c (x :: acc) xs

/-- Python s.split(sep) for a one-character separator. -/
def pySplitOn (s : String) (c : Char) : List String :=
  (splitListOn c [] s.data).map String.mk

/-- Python s.strip(): leading and trailing whitespace removed. -/
def pyStrip (s : String) : String :=
  String.mk
    (((s.data.dropWhile Char.isWhitespace).reverse.dropWhile
      Char.isWhitespace).reverse)

/-- Python str() conversion of a state value as interpolated by the f-string
in the surname branch of HubSpotManager.update_contact; only string-valued
fields are exercised by the theorems (a str-mixin enum formats as its value,
a dict never reaches this point in the modelled paths). -/
def SVal.pyStr : SVal → String
  | .snull => "None"
  | .sstr s => s
  | .sbool b => if b then "True" else "False"
  | .senum t => t.value
  | .sdict _ => "dict"

/-- Python str() of an update value, same scope as SVal.pyStr. -/
def UVal.pyStr : UVal → String
  | .unull => "None"
  | .ustr s => s
  | .ubool b => if b then "True" else "False"
  | .udict _ => "dict"

/-- An update value usable in Python string concatenation (value + literal):
only an actual string, anything else raises TypeError. -/
def UVal.asStr? : UVal → Option String
  | .ustr s => some s
  | _ => none

/-- Lookup in an extracted-info update map. -/
def lookupU : List (String × UVal) → String → Option UVal
  | [], _ => none
  | (k, v) :: rest, f => if k == f then some v else lookupU rest f

/-- Skip condition of the HubSpotManager.update_contact loop
(src/hubspot_manager.py line 157): any key outside detalles_maquinaria and
apellido whose current state value is truthy and outside the skip list is
ignored. -/
def hubspotSkip (state : ConvState) (key : String) : Bool :=
  key != "detalles_maquinaria" && key != "apellido" &&
    ((getKey state key).elim false SVal.truthy) &&
    !((getKey state key).elim false SVal.inSkipList)

/-- Effect of one update_contact loop iteration on the firstname property
(src/hubspot_manager.py lines 155-169): the nombre branch writes the value
plus the literal " Prueba Bot"; the apellido branch concatenates the current
state nombre with the surname, stripped, plus the same literal, falling back
to extracted_info nombre when the state nombre or the value is falsy.
Except.error models an exception inside the loop (TypeError on a non-string
concatenation, KeyError when extracted_info has no nombre), which the
surrounding try/except turns into an update that sends nothing. Keys other
than nombre and apellido write other HubSpot properties and leave firstname
unchanged; their own raise-free behaviour is not modelled and the theorems
below only pass maps made of these two keys. -/
def firstnameStep (state : ConvState) (extracted : List (String × UVal))
    (fn : Option String) (key : String) (value : UVal) : Except Unit (Option String) :=
  if hubspotSkip state key then Except.ok fn
  else if key == "nombre" then
    match value.asStr? with
    | some s => Except.ok (some (s ++ " Prueba Bot"))
    | none => Except.error ()
  else if key == "apellido" then
    let nombreActual := (getKey state "nombre").getD (SVal.sstr "")
    if nombreActual.truthy && value.truthy then
      Except.ok (some (pyStrip (nombreActual.pyStr ++ " " ++ value.pyStr) ++ " Prueba Bot"))
    else
      match lookupU extracted "nombre" with
      | none => Except.error ()
      | some nv =>
          match nv.asStr?, value.asStr? with
          | some ns, some vs => Except.ok (some (ns ++ " " ++ vs ++ " Prueba Bot"))
          | _, _ => Except.error ()
  else Except.ok fn

/-- The update_contact loop over the extracted entries, tracking the
firstname property. -/
def updateContactFirstnameGo (state : ConvState) (extracted : List (String × UVal)) :
    Option String → List (String × UVal) → Except Unit (Option String)
  | fn, [] => Except.ok fn
  | fn, (k, v) :: rest =>
      match firstnameStep state extracted fn k v with
      | Except.error e => Except.error e
      | Except.ok fn1 => updateContactFirstnameGo state extracted fn1 rest

/-- The firstname HubSpot property computed by HubSpotManager.update_contact
for a given state and extracted-info map (none: the property is not sent). -/
def updateContactFirstname (state : ConvState) (extracted : List (String × UVal)) :
    Except Unit (Option String) :=
  updateContactFirstnameGo state extracted none extracted

/-- One message-log entry with the keys the modelled code reads or writes;
absent dict keys are represented by none. -/
structure ChatMsg where
  role : String
  content : String
  questionType : Option String
  timestamp : Option String
  sender : Option String
  whatsappMessageId : Option String
deriving DecidableEq, Repr

/-- Inner question extraction of
IntelligentLeadQualificationChatbot._get_last_bot_question
(src/ai_langchain.py lines 1089-1099): when the entry contains a question
mark, the last line containing one and non-blank after stripping is returned
stripped, else the whole content; an entry without a question mark is
returned whole. -/
def questionFromContent (content : String) : String :=
  if pyContains content '?' then
    match (pySplitOn content '\n').reverse.find?
        (fun l => pyContains l '?' && pyStrip l != "") with
    | some l => pyStrip l
    | none => content
  else content

/-- Backward scan of _get_last_bot_question over the reversed log: the first
assistant entry found is always answered from, whether or not it contains a
question mark. -/
def lastBotQuestionAux : List ChatMsg → Option String
  | [] => none
  | m :: rest =>
      if m.role == "assistant" then some (questionFromContent m.content)
      else lastBotQuestionAux rest

/-- IntelligentLeadQualificationChatbot._get_last_bot_question
(src/ai_langchain.py lines 1084-1100). -/
def lastBotQuestion (msgs : List ChatMsg) : Option String :=
  lastBotQuestionAux msgs.reverse

/-- Cosmos-side message document, the shape written by
CosmosDBStateStore._conversation_state_to_cosmos and _append_messages. -/
structure CosmosMsg where
  id : String
  whatsappMessageId : String
  sender : String
  text : String
  questionType : String
  timestamp : String
  delivered : Bool
  read : Bool
deriving DecidableEq, Repr

/-- Effect of CosmosDBStateStore.add_single_message (src/state_management.py
lines 229-258) on the stored message list for a text message: the formatted
entry (sender lead, empty question type, the transport-provided WhatsApp
message id) is appended by _append_messages through an add patch on the
messages array. No comparison against the ids already present in the log is
performed anywhere on this path. msgId and ts stand for the generated
document id and the current timestamp. -/
def addSingleMessage (log : List CosmosMsg) (content waMsgId msgId ts : String) :
    List CosmosMsg :=
  log ++ [⟨msgId, waMsgId, "lead", content, "", ts, true, false⟩]

/-- The typed conversation state handled by the Cosmos DB conversions
(ConversationState of src/state_management.py lines 19-37). -/
structure StateRec where
  nombre : Option String
  apellido : Option String
  tipo_maquinaria : Option MaquinariaType
  detalles_maquinaria : List (String × DVal)
  sitio_web : Option String
  uso_empresa_o_venta : Option String
  nombre_completo : Option String
  nombre_empresa : Option String
  giro_empresa : Option String
  correo : Option String
  telefono : Option String
  completed : Bool
  lugar_requerimiento : Option String
  messages : List ChatMsg
  conversation_mode : String
  asignado_asesor : Option String
  hubspot_contact_id : Option String
deriving DecidableEq, Repr

/-- The state sub-document stored in Cosmos DB: the conversation state minus
the keys lifted to the document root, the machinery type as its string
value. -/
structure CosmosState where
  nombre : Option String
  apellido : Option String
  tipo_maquinaria : Option String
  detalles_maquinaria : List (String × DVal)
  sitio_web : Option String
  uso_empresa_o_venta : Option String
  nombre_completo : Option String
  nombre_empresa : Option String
  giro_empresa : Option String
  correo : Option String
  telefono : Option String
  completed : Bool
  lugar_requerimiento : Option String
deriving DecidableEq, Repr

/-- The Cosmos DB conversation document. -/
structure CosmosDoc where
  id : String
  lead_id : String
  canal : String
  created_at : String
  updated_at : String
  state : CosmosState
  messages : List CosmosMsg
  conversation_mode : String
  asignado_asesor : Option String
  hubspot_contact_id : Option String
deriving DecidableEq, Repr

/-- Message formatting loop of _conversation_state_to_cosmos
(src/state_management.py lines 280-292): ids are msg_(n+1) with n the count
already formatted, missing sender defaults from the role, missing question
type to the empty string, missing timestamp to the current time. -/
def formatMessagesFrom (now : String) : Nat → List ChatMsg → List CosmosMsg
  | _, [] => []
  | n, m :: rest =>
      ⟨"msg_" ++ toString (n + 1),
       m.whatsappMessageId.getD "",
       m.sender.getD (if m.role == "user" then "lead" else "bot"),
       m.content,
       m.questionType.getD "",
       m.timestamp.getD now,
       true, false⟩ :: formatMessagesFrom now (n + 1) rest

/-- CosmosDBStateStore._conversation_state_to_cosmos (src/state_management.py
lines 275-318); now stands for the current timestamp, userId for the lead
id. -/
def conversationStateToCosmos (userId now : String) (st : StateRec) : CosmosDoc :=
  ⟨"conv_" ++ userId, userId, "whatsapp", now, now,
   ⟨st.nombre, st.apellido,
    (match st.tipo_maquinaria with
     | some t => some t.value
     | none => none),
    st.detalles_maquinaria, st.sitio_web, st.uso_empresa_o_venta,
    st.nombre_completo, st.nombre_empresa, st.giro_empresa, st.correo,
    st.telefono, st.completed, st.lugar_requerimiento⟩,
   formatMessagesFrom now 0 st.messages,
   st.conversation_mode, st.asignado_asesor, st.hubspot_contact_id⟩

/-- Message conversion of _cosmos_to_conversation_state
(src/state_management.py lines 326-334): the role is rebuilt from the
sender, the WhatsApp message id is not carried back. -/
def convMsg (m : CosmosMsg) : ChatMsg :=
  ⟨if m.sender == "lead" then "user" else "assistant",
   m.text, some m.questionType, some m.timestamp, some m.sender, none⟩

/-- CosmosDBStateStore._cosmos_to_conversation_state (src/state_management.py
lines 320-363). In Python an empty tipo string stays unparsed behind the
falsy guard and an unknown value is nulled by the ValueError handler; both
are modelled as none. -/
def cosmosToConversationState (doc : CosmosDoc) : StateRec :=
  ⟨doc.state.nombre, doc.state.apellido,
   (match doc.state.tipo_maquinaria with
    | none => none
    | some s => if s == "" then none else MaquinariaType.ofValue? s),
   doc.state.detalles_maquinaria, doc.state.sitio_web,
   doc.state.uso_empresa_o_venta, doc.state.nombre_completo,
   doc.state.nombre_empresa, doc.state.giro_empresa, doc.state.correo,
   doc.state.telefono, doc.state.completed, doc.state.lugar_requerimiento,
   doc.messages.map convMsg,
   doc.conversation_mode, doc.asignado_asesor, doc.hubspot_contact_id⟩

/-- The save-then-load composition of the State Store on one record. -/
def roundTripState (userId now : String) (st : StateRec) : StateRec :=
  cosmosToConversationState (conversationStateToCosmos userId now st)

/-- The behavioural core of a log message: the fields the chatbot reads. -/
def msgCore (m : ChatMsg) : String × String × Option String × Option String :=
  (m.role, m.content, m.sender, m.timestamp)

/-- Leading guard of IntelligentLeadQualificationChatbot.send_message
(src/ai_langchain.py lines 911-913): a missing or whitespace-only user
message returns the empty reply before the log append, the extraction, the
merge and the save. The remainder of the method is abstracted as the
continuation k; the Bool of the result records whether save_conversation ran
on this path. -/
def sendMessageGuard (k : ConvState → String → String × ConvState × Bool)
    (st : ConvState) (userMessage : String) : String × ConvState × Bool :=
  if userMessage == "" || pyStrip userMessage == "" then ("", st, false)
  else k st userMessage

/-- Per-type machinery-detail field descriptor of MAQUINARIA_CONFIG. -/
structure DetailField where
  name : String
  reason : String
  question : String
  required : Bool
deriving DecidableEq, Repr

/-- MAQUINARIA_CONFIG from src/ai_langchain.py lines 81-184. The source also
writes an entry under MaquinariaType.LGMG, but state_management.MaquinariaType
declares no member LGMG, so that entry cannot be bound against the given enum
and is unrepresentable here; the remaining members carry no config entry. -/
def maquinariaConfig : MaquinariaType → Option (List DetailField)
  | .SOLDADORAS => some
      [⟨"amperaje", "Para recomendarte el modelo adecuado según tu trabajo",
        "¿cuál es el amperaje que necesitas?", true⟩,
       ⟨"electrodo", "Para asegurar compatibilidad con tus materiales",
        "¿qué tipo de electrodo quemas?", true⟩]
  | .COMPRESOR => some
      [⟨"capacidad_volumen", "Para seleccionar la potencia correcta",
        "¿cuál es la capacidad de volumen de aire necesitas?", true⟩,
       ⟨"herramientas_conectar", "Para verificar compatibilidad con tus equipos",
        "¿qué herramientas le vas a conectar?", true⟩]
  | .TORRE_ILUMINACION => some
      [⟨"es_led", "Para determinar el tipo de iluminación necesario",
        "¿prefieres iluminación LED?", true⟩]
  | .GENERADORES => some
      [⟨"actividad", "Para entender el contexto de uso",
        "¿para qué actividad lo requiere?", true⟩,
       ⟨"capacidad", "Para determinar la potencia necesaria",
        "¿qué capacidad en kvas o kw necesitas?", true⟩]
  | .ROMPEDORES => some
      [⟨"uso", "Para entender el contexto de uso",
        "¿para qué lo va a utilizar?", true⟩,
       ⟨"tipo", "Para determinar el tipo de energía necesaria",
        "¿lo requiere eléctrico o neumático?", true⟩]
  | _ => none

/-- get_required_fields_for_tipo from src/ai_langchain.py lines 190-196: the
names of the required config fields, an unknown type giving the empty list. -/
def getRequiredFieldsForTipo (t : MaquinariaType) : List String :=
  match maquinariaConfig t with
  | none => []
  | some fs => (fs.filter (fun f => f.required)).map (fun f => f.name)

/-- Config lookup keyed by a stored tipo_maquinaria value: an enum member is
looked up directly and a plain string finds the member with that value
(str-mixin enum members hash as their value, so the Python dict membership
test behaves this way); other shapes find nothing. Membership with an
unhashable dict key would raise TypeError in Python; the theorems below
restrict the tipo slot to unset or enum values, where no difference arises. -/
def tipoConfig : SVal → Option (List DetailField)
  | .senum t => maquinariaConfig t
  | .sstr s => (MaquinariaType.ofValue? s).bind maquinariaConfig
  | _ => none

/-- Required detail-field names for a stored tipo_maquinaria value, used by
the completion checker. -/
def tipoRequiredFields : SVal → List String
  | .senum t => getRequiredFieldsForTipo t
  | .sstr s =>
      match MaquinariaType.ofValue? s with
      | some t => getRequiredFieldsForTipo t
      | none => []
  | _ => []

/-- The fixed required-field list of IntelligentSlotFiller
.is_conversation_complete (src/ai_langchain.py lines 580-583). -/
def checkerRequiredFields : List String :=
  ["nombre", "tipo_maquinaria", "lugar_requerimiento", "nombre_empresa",
   "giro_empresa", "sitio_web", "uso_empresa_o_venta", "nombre_completo",
   "correo", "telefono"]

/-- Validity of one machinery-detail value as tested by
is_conversation_complete: not None, not the empty string and not the
sentinel No especificado. -/
def detailValueOk : DVal → Bool
  | .dnull => false
  | .dstr s => s != "" && s != "No especificado"
  | .dbool _ => true

/-- IntelligentSlotFiller.is_conversation_complete (src/ai_langchain.py lines
577-610): every field of checkerRequiredFields must be truthy, non-empty and
non-sentinel; tipo_maquinaria and the detalles_maquinaria sub-map must be
truthy; every required detail field of the selected type must be present and
pass detailValueOk. Detail membership on a non-dict detalles value is
modelled as failing (Python would perform substring membership on a string
there); the theorems below assume the detalles slot holds a dict. -/
def is_conversation_complete (st : ConvState) : Bool :=
  (checkerRequiredFields.all (fun f =>
    match getKey st f with
    | none => false
    | some v => v.truthy && !(v.pyEqStr "") && !v.isSentinel)) &&
  (let tipo := getKey st "tipo_maquinaria"
   let det := (getKey st "detalles_maquinaria").getD (SVal.sdict [])
   (tipo.elim false SVal.truthy) && det.truthy &&
   ((tipo.elim [] tipoRequiredFields).all (fun f =>
      match det with
      | SVal.sdict d =>
          match dgetKey d f with
          | none => false
          | some v => detailValueOk v
      | _ => false)))

/-- slot_priority of IntelligentSlotFiller.get_next_question
(src/ai_langchain.py lines 415-427); the detalles_maquinaria entry carries no
reason in the source (None) and is dispatched separately, the placeholder
here is never read. -/
def slotPriority : List (String × String) :=
  [("nombre", "Para brindarte atención personalizada"),
   ("tipo_maquinaria", "Para revisar nuestro inventario disponible"),
   ("detalles_maquinaria", ""),
   ("lugar_requerimiento", "Para coordinar la entrega del equipo"),
   ("uso_empresa_o_venta", "Para ofrecerle las mejores opciones comerciales"),
   ("nombre_empresa", "Para generar la cotización a nombre de su empresa"),
   ("sitio_web", "Para conocer mejor su empresa y generar una cotización más precisa"),
   ("giro_empresa", "Para entender mejor sus necesidades específicas"),
   ("nombre_completo", "Para los documentos oficiales de cotización"),
   ("correo", "Para enviarle la cotización"),
   ("telefono", "Para darle seguimiento personalizado")]

/-- IntelligentSlotFiller._get_maquinaria_detail_question_with_reason
(src/ai_langchain.py lines 555-575): no question when tipo is unset, falsy or
unconfigured; otherwise the reason and question of the first config field
whose detail value is missing or falsy. Except.error models the
AttributeError raised by calling .get on a non-dict detalles value; the
caller catches every exception and yields None. -/
def detailQuestion (st : ConvState) : Except Unit (Option String) :=
  match getKey st "tipo_maquinaria" with
  | none => Except.ok none
  | some tv =>
      if !tv.truthy then Except.ok none
      else
        match tipoConfig tv with
        | none => Except.ok none
        | some fields =>
            match (getKey st "detalles_maquinaria").getD (SVal.sdict []) with
            | SVal.sdict d =>
                match fields.find? (fun f => !((dgetKey d f.name).elim false DVal.truthy)) with
                | some f => Except.ok (some (f.reason ++ ", " ++ f.question))
                | none => Except.ok none
            | _ => Except.error ()

/-- Slot walk of IntelligentSlotFiller.get_next_question: each slot in
priority order is asked about when empty or sentinel-valued, the
detalles_maquinaria slot delegating to detailQuestion. genQ stands for the
LLM-backed _generate_conversational_question. The outer none models an
exception, which the try/except of the source turns into the None result. -/
def nextQuestionAux (genQ : String → String → ConvState → String) (st : ConvState) :
    List (String × String) → Option (Option (String × String))
  | [] => some none
  | (slot, reason) :: rest =>
      if slot == "detalles_maquinaria" then
        match detailQuestion st with
        | Except.error _ => none
        | Except.ok (some q) =>
            if q != "" then some (some (q, "detalles_maquinaria"))
            else nextQuestionAux genQ st rest
        | Except.ok none => nextQuestionAux genQ st rest
      else
        let value := getKey st slot
        if !(value.elim false SVal.truthy) || (value.elim false SVal.isSentinel) then
          some (some (genQ slot reason st, slot))
        else
          nextQuestionAux genQ st rest

/-- IntelligentSlotFiller.get_next_question (src/ai_langchain.py lines
407-447): the next (question, question_type) pair, or none when every slot is
filled (or an exception was caught). -/
def get_next_question (genQ : String → String → ConvState → String)
    (st : ConvState) : Option (String × String) :=
  match nextQuestionAux genQ st slotPriority with
  | none => none
  | some r => r

/-! Supporting lemmas about the dict model. -/

/-- Membership of a key in a key list, as a Bool. -/
def keyMem (k : String) : List String → Bool
  | [] => false
  | x :: xs => (x == k) || keyMem k xs

/-- Key distinctness of a Python dict or JSON object, as a Bool. -/
def keysDistinct : List String → Bool
  | [] => true
  | k :: ks => !(keyMem k ks) && keysDistinct ks

theorem getKey_setKey_same (st : ConvState) (k : String) (w : SVal) :
    getKey (setKey st k w) k = some w := by
  induction st with
  | nil => simp [getKey, setKey]
  | cons p rest ih =>
      obtain ⟨k0, v0⟩ := p
      by_cases h : k0 = k
      · subst h; simp [getKey, setKey]
      · simp [getKey, setKey, h, ih]

theorem getKey_setKey_ne (st : ConvState) (k f : String) (w : SVal) (h : f ≠ k) :
    getKey (setKey st k w) f = getKey st f := by
  induction st with
  | nil => simp [getKey, setKey, beq_iff_eq, Ne.symm h]
  | cons p rest ih =>
      obtain ⟨k0, v0⟩ := p
      by_cases h0 : k0 = k
      · subst h0
        have : ¬ (k0 == f) = true := by simp [Ne.symm h]
        simp [getKey, setKey, this]
      · by_cases h1 : k0 = f
        · subst h1; simp [getKey, setKey, h0]
        · simp [getKey, setKey, h0, h1, ih]

theorem setKey_self (st : ConvState) (k : String) (v : SVal)
    (h : getKey st k = some v) : setKey st k v = st := by
  induction st with
  | nil => simp [getKey] at h
  | cons p rest ih =>
      obtain ⟨k0, v0⟩ := p
      by_cases h0 : k0 = k
      · subst h0
        simp [getKey] at h
        simp [setKey, h]
      · simp [getKey, h0] at h
        simp [setKey, h0, ih h]

theorem dgetKey_dsetKey_same (d : List (String × DVal)) (k : String) (w : DVal) :
    dgetKey (dsetKey d k w) k = some w := by
  induction d with
  | nil => simp [dgetKey, dsetKey]
  | cons p rest ih =>
      obtain ⟨k0, v0⟩ := p
      by_cases h : k0 = k
      · subst h; simp [dgetKey, dsetKey]
      · simp [dgetKey, dsetKey, h, ih]

theorem dgetKey_dsetKey_ne (d : List (String × DVal)) (k f : String) (w : DVal)
    (h : f ≠ k) : dgetKey (dsetKey d k w) f = dgetKey d f := by
  induction d with
  | nil => simp [dgetKey, dsetKey, beq_iff_eq, Ne.symm h]
  | cons p rest ih =>
      obtain ⟨k0, v0⟩ := p
      by_cases h0 : k0 = k
      · subst h0
        have : ¬ (k0 == f) = true := by simp [Ne.symm h]
        simp [dgetKey, dsetKey, this]
      · by_cases h1 : k0 = f
        · subst h1; simp [dgetKey, dsetKey, h0]
        · simp [dgetKey, dsetKey, h0, h1, ih]

theorem dsetKey_self (d : List (String × DVal)) (k : String) (v : DVal)
    (h : dgetKey d k = some v) : dsetKey d k v = d := by
  induction d with
  | nil => simp [dgetKey] at h
  | cons p rest ih =>
      obtain ⟨k0, v0⟩ := p
      by_cases h0 : k0 = k
      · subst h0
        simp [dgetKey] at h
        simp [dsetKey, h]
      · simp [dgetKey, h0] at h
        simp [dsetKey, h0, ih h]

theorem dgetKey_mem (d : List (String × DVal)) (k : String) (v : DVal)
    (h : dgetKey d k = some v) : (k, v) ∈ d := by
  induction d with
  | nil => simp [dgetKey] at h
  | cons p rest ih =>
      obtain ⟨k0, v0⟩ := p
      by_cases h0 : k0 = k
      · subst h0
        simp [dgetKey] at h
        subst h
        exact List.mem_cons_self _ _
      · simp [dgetKey, h0] at h
        exact List.mem_cons_of_mem _ (ih h)

theorem dictUpdate_nil (d0 : List (String × DVal)) : dictUpdate d0 [] = d0 := rfl

theorem dictUpdate_cons (d0 : List (String × DVal)) (k : String) (v : DVal)
    (d : List (String × DVal)) :
    dictUpdate d0 ((k, v) :: d) = dictUpdate (dsetKey d0 k v) d := rfl

theorem dgetKey_none_of_keyMem_false (d : List (String × DVal)) (k : String)
    (h : keyMem k (d.map Prod.fst) = false) : dgetKey d k = none := by
  induction d with
  | nil => rfl
  | cons p rest ih =>
      obtain ⟨k0, v0⟩ := p
      simp [keyMem] at h
      obtain ⟨h1, h2⟩ := h
      simp [dgetKey, h1, ih (by simpa using h2)]

theorem dgetKey_dictUpdate_notin (d0 d : List (String × DVal)) (k : String)
    (h : keyMem k (d.map Prod.fst) = false) :
    dgetKey (dictUpdate d0 d) k = dgetKey d0 k := by
  induction d generalizing d0 with
  | nil => simp [dictUpdate]
  | cons p rest ih =>
      obtain ⟨k0, v0⟩ := p
      simp [keyMem] at h
      obtain ⟨h1, h2⟩ := h
      rw [dictUpdate_cons, ih _ (by simpa using h2),
        dgetKey_dsetKey_ne _ _ _ _ (Ne.symm h1)]

theorem dgetKey_dictUpdate (d0 d : List (String × DVal)) (k : String)
    (hnd : keysDistinct (d.map Prod.fst) = true) :
    dgetKey (dictUpdate d0 d) k =
      (match dgetKey d k with
       | some v => some v
       | none => dgetKey d0 k) := by
  induction d generalizing d0 with
  | nil => simp [dictUpdate, dgetKey]
  | cons p rest ih =>
      obtain ⟨k0, v0⟩ := p
      simp [keysDistinct] at hnd
      obtain ⟨h1, h2⟩ := hnd
      rw [dictUpdate_cons, ih _ h2]
      by_cases hk : k = k0
      · subst hk
        have hrest : dgetKey rest k = none :=
          dgetKey_none_of_keyMem_false _ _ (by simpa using h1)
        simp [hrest, dgetKey, dgetKey_dsetKey_same]
      · simp [dgetKey, beq_iff_eq, Ne.symm hk, dgetKey_dsetKey_ne _ _ _ _ hk]

theorem dictUpdate_idem (d0 d : List (String × DVal))
    (hnd : keysDistinct (d.map Prod.fst) = true) :
    dictUpdate (dictUpdate d0 d) d = dictUpdate d0 d := by
  induction d generalizing d0 with
  | nil => simp [dictUpdate]
  | cons p rest ih =>
      obtain ⟨k0, v0⟩ := p
      simp [keysDistinct] at hnd
      obtain ⟨h1, h2⟩ := hnd
      rw [dictUpdate_cons, dictUpdate_cons]
      have hget : dgetKey (dictUpdate (dsetKey d0 k0 v0) rest) k0 = some v0 := by
        rw [dgetKey_dictUpdate_notin _ _ _ (by simpa using h1), dgetKey_dsetKey_same]
      rw [dsetKey_self _ _ _ hget, ih _ h2]

/-! Bridging lemmas: the field test shared by the checker and the selector. -/

/-- A top-level field holds a usable value: present, truthy and not one of the
two sentinel strings. The next two lemmas show that the completion checker
and the next-question selector both test exactly this. -/
def fieldOk (st : ConvState) (f : String) : Bool :=
  match getKey st f with
  | none => false
  | some v => v.truthy && !v.isSentinel

theorem checker_field_eq_fieldOk (st : ConvState) (f : String) :
    (match getKey st f with
     | none => false
     | some v => v.truthy && !(v.pyEqStr "") && !v.isSentinel) = fieldOk st f := by
  unfold fieldOk
  cases h : getKey st f with
  | none => rfl
  | some v =>
      cases v with
      | sstr s =>
          by_cases hs : s = "" <;>
            simp [SVal.truthy, SVal.pyEqStr, SVal.isSentinel, bne, hs]
      | senum t => cases t <;> rfl
      | _ => simp [SVal.truthy, SVal.pyEqStr, SVal.isSentinel]

theorem selector_ask_eq_fieldOk (st : ConvState) (f : String) :
    (!((getKey st f).elim false SVal.truthy) ||
      ((getKey st f).elim false SVal.isSentinel)) = !(fieldOk st f) := by
  unfold fieldOk
  cases h : getKey st f with
  | none => rfl
  | some v => cases hb : v.truthy <;> simp [hb]

theorem senum_truthy (t : MaquinariaType) : (SVal.senum t).truthy = true := rfl

theorem senum_not_sentinel (t : MaquinariaType) :
    (SVal.senum t).isSentinel = false := by
  cases t <;> rfl

theorem senum_not_inSkipList (t : MaquinariaType) :
    (SVal.senum t).inSkipList = false := by
  cases t <;> rfl

theorem senum_fieldOk (st : ConvState) (f : String) (t : MaquinariaType)
    (h : getKey st f = some (SVal.senum t)) : fieldOk st f = true := by
  simp [fieldOk, h, senum_truthy, senum_not_sentinel]

theorem ofValue_value (t : MaquinariaType) :
    MaquinariaType.ofValue? t.value = some t := by
  cases t <;> rfl

theorem value_ne_empty (t : MaquinariaType) : t.value ≠ "" := by
  cases t <;> decide

/-! Characterization of the next-question selector. -/

theorem step_normal (genQ : String → String → ConvState → String) (st : ConvState)
    (slot reason : String) (rest : List (String × String))
    (hslot : (slot == "detalles_maquinaria") = false) :
    nextQuestionAux genQ st ((slot, reason) :: rest) =
      if fieldOk st slot then nextQuestionAux genQ st rest
      else some (some (genQ slot reason st, slot)) := by
  rw [nextQuestionAux, hslot]
  simp only [selector_ask_eq_fieldOk st slot]
  cases hf : fieldOk st slot <;> simp [hf]

theorem step_detail (genQ : String → String → ConvState → String) (st : ConvState)
    (reason : String) (rest : List (String × String)) :
    nextQuestionAux genQ st (("detalles_maquinaria", reason) :: rest) =
      match detailQuestion st with
      | Except.error _ => none
      | Except.ok (some q) =>
          if q != "" then some (some (q, "detalles_maquinaria"))
          else nextQuestionAux genQ st rest
      | Except.ok none => nextQuestionAux genQ st rest := by
  rw [nextQuestionAux]
  simp

theorem aux_spec (genQ : String → String → ConvState → String) (st : ConvState)
    (l : List (String × String))
    (hl : keyMem "detalles_maquinaria" (l.map Prod.fst) = false) :
    nextQuestionAux genQ st l ≠ none ∧
      (nextQuestionAux genQ st l = some none ↔ ∀ p ∈ l, fieldOk st p.1 = true) := by
  induction l with
  | nil => simp [nextQuestionAux]
  | cons p rest ih =>
      obtain ⟨slot, reason⟩ := p
      simp only [List.map_cons, keyMem, Bool.or_eq_false_iff] at hl
      obtain ⟨h1, h2⟩ := hl
      have ihr := ih h2
      rw [step_normal genQ st slot reason rest h1]
      cases hf : fieldOk st slot with
      | true =>
          refine ⟨by simpa using ihr.1, ?_⟩
          simp only [if_true]
          rw [ihr.2]
          constructor
          · intro hall p hp
            rcases List.mem_cons.mp hp with h | h
            · rw [h]; exact hf
            · exact hall p h
          · intro hall p hp
            exact hall p (List.mem_cons_of_mem _ hp)
      | false =>
          refine ⟨by simp, ?_⟩
          rw [if_neg (show ¬(false = true) by simp)]
          constructor
          · intro hcontra
            simp at hcontra
          · intro hall
            have hmem := hall (slot, reason) (List.mem_cons_self _ _)
            rw [hf] at hmem
            exact absurd hmem Bool.false_ne_true

/-- The eight slots following detalles_maquinaria in the priority order. -/
def postSlots : List (String × String) :=
  [("lugar_requerimiento", "Para coordinar la entrega del equipo"),
   ("uso_empresa_o_venta", "Para ofrecerle las mejores opciones comerciales"),
   ("nombre_empresa", "Para generar la cotización a nombre de su empresa"),
   ("sitio_web", "Para conocer mejor su empresa y generar una cotización más precisa"),
   ("giro_empresa", "Para entender mejor sus necesidades específicas"),
   ("nombre_completo", "Para los documentos oficiales de cotización"),
   ("correo", "Para enviarle la cotización"),
   ("telefono", "Para darle seguimiento personalizado")]

theorem slotPriority_eq :
    slotPriority =
      ("nombre", "Para brindarte atención personalizada") ::
      ("tipo_maquinaria", "Para revisar nuestro inventario disponible") ::
      ("detalles_maquinaria", "") :: postSlots := rfl

theorem postSlots_no_detail :
    keyMem "detalles_maquinaria" (postSlots.map Prod.fst) = false := by decide

/-! Facts about the per-type config tables. -/

theorem config_field_q_ne (t : MaquinariaType) (fields : List DetailField)
    (hc : maquinariaConfig t = some fields) (f : DetailField) (hf : f ∈ fields) :
    (f.reason ++ ", " ++ f.question) ≠ "" := by
  cases t <;> simp only [maquinariaConfig, Option.some.injEq] at hc <;>
    first
      | exact absurd hc (by simp)
      | (subst hc; simp at hf;
         rcases hf with rfl | rfl <;> decide)
      | (subst hc; simp at hf; rw [hf]; decide)

theorem config_field_required (t : MaquinariaType) (fields : List DetailField)
    (hc : maquinariaConfig t = some fields) (f : DetailField) (hf : f ∈ fields) :
    f.required = true := by
  cases t <;> simp only [maquinariaConfig, Option.some.injEq] at hc <;>
    first
      | exact absurd hc (by simp)
      | (subst hc; simp at hf;
         rcases hf with rfl | rfl <;> decide)
      | (subst hc; simp at hf; rw [hf]; decide)

theorem config_fields_ne_nil (t : MaquinariaType) (fields : List DetailField)
    (hc : maquinariaConfig t = some fields) : fields ≠ [] := by
  cases t <;> simp only [maquinariaConfig, Option.some.injEq] at hc <;>
    first
      | exact absurd hc (by simp)
      | (subst hc; simp)

theorem name_mem_required (t : MaquinariaType) (fields : List DetailField)
    (hc : maquinariaConfig t = some fields) (f : DetailField) (hf : f ∈ fields) :
    f.name ∈ getRequiredFieldsForTipo t := by
  have hr := config_field_required t fields hc f hf
  simp [getRequiredFieldsForTipo, hc]
  exact ⟨f, ⟨hf, hr⟩, rfl⟩

theorem required_mem_name (t : MaquinariaType) (fields : List DetailField)
    (hc : maquinariaConfig t = some fields) (n : String)
    (hn : n ∈ getRequiredFieldsForTipo t) : ∃ f ∈ fields, f.name = n := by
  simp [getRequiredFieldsForTipo, hc] at hn
  obtain ⟨f, ⟨hf, _⟩, hname⟩ := hn
  exact ⟨f, hf, hname⟩

/-- Pointwise consequence of the hypothesis that every stored detail value is
truthy exactly when the checker accepts it. -/
theorem detail_agree (d : List (String × DVal))
    (h3 : ∀ p ∈ d, DVal.truthy p.2 = detailValueOk p.2) (n : String) :
    ((dgetKey d n).elim false DVal.truthy) =
      (match dgetKey d n with
       | none => false
       | some v => detailValueOk v) := by
  cases h : dgetKey d n with
  | none => rfl
  | some v => exact h3 (n, v) (dgetKey_mem _ _ _ h)

theorem match_dget_true (d : List (String × DVal)) (n : String) :
    ((match dgetKey d n with
      | none => false
      | some v => detailValueOk v) = true) ↔
      (∃ v, dgetKey d n = some v ∧ detailValueOk v = true) := by
  cases h : dgetKey d n <;> simp [h]

/-! Characterization of the completion checker. -/

theorem notIsEmpty_iff (l : List (String × DVal)) : (!l.isEmpty) = true ↔ l ≠ [] := by
  cases l <;> simp

theorem checker_char (st : ConvState) (d : List (String × DVal))
    (h2 : (getKey st "detalles_maquinaria").getD (SVal.sdict []) = SVal.sdict d) :
    (is_conversation_complete st = true ↔
      ((∀ f ∈ checkerRequiredFields, fieldOk st f = true) ∧
       (getKey st "tipo_maquinaria").elim false SVal.truthy = true ∧
       d ≠ [] ∧
       ∀ n ∈ (getKey st "tipo_maquinaria").elim [] tipoRequiredFields,
         ∃ v, dgetKey d n = some v ∧ detailValueOk v = true)) := by
  unfold is_conversation_complete
  rw [congrArg (List.all checkerRequiredFields)
    (funext fun f => checker_field_eq_fieldOk st f)]
  rw [h2]
  simp only [Bool.and_eq_true, List.all_eq_true, SVal.truthy, match_dget_true,
    notIsEmpty_iff, and_assoc]

/-! The agreement between the checker and the selector. -/

theorem checker_cover : ∀ f ∈ checkerRequiredFields,
    f = "nombre" ∨ f = "tipo_maquinaria" ∨ f ∈ postSlots.map Prod.fst := by decide

theorem post_sub_checker : ∀ f ∈ postSlots.map Prod.fst,
    f ∈ checkerRequiredFields := by decide

theorem forall_pairs_iff_map (l : List (String × String)) (P : String → Prop) :
    (∀ p ∈ l, P p.1) ↔ (∀ f ∈ l.map Prod.fst, P f) := by
  constructor
  · intro h f hf
    obtain ⟨p, hp, rfl⟩ := List.mem_map.mp hf
    exact h p hp
  · intro h p hp
    exact h p.1 (List.mem_map_of_mem Prod.fst hp)

theorem selector_via_post (genQ : String → String → ConvState → String)
    (st : ConvState)
    (hn : fieldOk st "nombre" = true) (ht : fieldOk st "tipo_maquinaria" = true)
    (hdq : detailQuestion st = Except.ok none) :
    (get_next_question genQ st = none ↔
      ∀ f ∈ postSlots.map Prod.fst, fieldOk st f = true) := by
  have haux := aux_spec genQ st postSlots postSlots_no_detail
  unfold get_next_question
  rw [slotPriority_eq, step_normal genQ st _ _ _ (by decide), hn, if_pos rfl,
      step_normal genQ st _ _ _ (by decide), ht, if_pos rfl,
      step_detail, hdq]
  rw [← forall_pairs_iff_map, ← haux.2]
  cases hres : nextQuestionAux genQ st postSlots with
  | none => exact absurd hres haux.1
  | some r => rcases r with _ | q <;> simp

/-- C1 (amended): the completion checker and the next-question selector agree
— is_conversation_complete is true exactly when get_next_question returns no
further question — only over well-behaved states: the tipo slot unset or an
enum member (h1), the detalles slot holding a dict (h2), every stored detail
value truthy exactly when the checker accepts it (h3), and a configured type
selected whenever the detail dict is empty (h4). The counterexample theorem
shows the equivalence the claim asserts for all reachable states fails
without h3: es_led extracted as false is reachable in one merge and makes
the checker accept while the selector still asks. -/
theorem selector_checker_agreement (genQ : String → String → ConvState → String)
    (st : ConvState) (d : List (String × DVal))
    (h1 : getKey st "tipo_maquinaria" = none ∨
          getKey st "tipo_maquinaria" = some SVal.snull ∨
          ∃ t, getKey st "tipo_maquinaria" = some (SVal.senum t))
    (h2 : (getKey st "detalles_maquinaria").getD (SVal.sdict []) = SVal.sdict d)
    (h3 : ∀ p ∈ d, DVal.truthy p.2 = detailValueOk p.2)
    (h4 : ∀ t, getKey st "tipo_maquinaria" = some (SVal.senum t) →
          maquinariaConfig t = none → d ≠ []) :
    (is_conversation_complete st = true ↔ get_next_question genQ st = none) := by
  rw [checker_char st d h2]
  cases hn : fieldOk st "nombre" with
  | false =>
      have hsel : get_next_question genQ st =
          some (genQ "nombre" "Para brindarte atención personalizada" st, "nombre") := by
        unfold get_next_question
        rw [slotPriority_eq, step_normal genQ st _ _ _ (by decide), hn]
        simp
      constructor
      · rintro ⟨hall, -⟩
        have := hall "nombre" (by simp [checkerRequiredFields])
        rw [hn] at this
        exact absurd this Bool.false_ne_true
      · intro hnone
        rw [hsel] at hnone
        exact absurd hnone (by simp)
  | true =>
  cases htOk : fieldOk st "tipo_maquinaria" with
  | false =>
      have hsel : get_next_question genQ st =
          some (genQ "tipo_maquinaria" "Para revisar nuestro inventario disponible" st,
            "tipo_maquinaria") := by
        unfold get_next_question
        rw [slotPriority_eq, step_normal genQ st _ _ _ (by decide), hn, if_pos rfl,
            step_normal genQ st _ _ _ (by decide), htOk]
        simp
      constructor
      · rintro ⟨hall, -⟩
        have := hall "tipo_maquinaria" (by simp [checkerRequiredFields])
        rw [htOk] at this
        exact absurd this Bool.false_ne_true
      · intro hnone
        rw [hsel] at hnone
        exact absurd hnone (by simp)
  | true =>
  obtain ⟨t, ht⟩ : ∃ t, getKey st "tipo_maquinaria" = some (SVal.senum t) := by
    rcases h1 with h | h | h
    · rw [fieldOk, h] at htOk
      exact absurd htOk Bool.false_ne_true
    · rw [fieldOk, h] at htOk
      exact absurd htOk Bool.false_ne_true
    · exact h
  have htruthy : (getKey st "tipo_maquinaria").elim false SVal.truthy = true := by
    rw [ht]; rfl
  cases hcfg : maquinariaConfig t with
  | none =>
      have hdq : detailQuestion st = Except.ok none := by
        rw [detailQuestion, ht]
        simp [SVal.truthy, tipoConfig, hcfg]
      have hd : d ≠ [] := h4 t ht hcfg
      have hreq : (getKey st "tipo_maquinaria").elim [] tipoRequiredFields = [] := by
        rw [ht]
        simp [tipoRequiredFields, getRequiredFieldsForTipo, hcfg]
      rw [selector_via_post genQ st hn htOk hdq, hreq]
      constructor
      · rintro ⟨hall, -, -, -⟩
        exact fun f hf => hall f (post_sub_checker f hf)
      · intro hall
        refine ⟨?_, htruthy, hd, by simp⟩
        intro f hf
        rcases checker_cover f hf with rfl | rfl | h
        · exact hn
        · exact htOk
        · exact hall f h
  | some fields =>
      have hdq : detailQuestion st =
          (match fields.find? (fun f => !((dgetKey d f.name).elim false DVal.truthy)) with
           | some f => Except.ok (some (f.reason ++ ", " ++ f.question))
           | none => Except.ok none) := by
        rw [detailQuestion, ht]
        simp [SVal.truthy, tipoConfig, hcfg, h2]
      have hreq : (getKey st "tipo_maquinaria").elim [] tipoRequiredFields =
          getRequiredFieldsForTipo t := by
        rw [ht]; rfl
      cases hfind : fields.find? (fun f => !((dgetKey d f.name).elim false DVal.truthy)) with
      | some f =>
          have hfmem := List.mem_of_find?_eq_some hfind
          have hq := config_field_q_ne t fields hcfg f hfmem
          have hsel : get_next_question genQ st =
              some (f.reason ++ ", " ++ f.question, "detalles_maquinaria") := by
            unfold get_next_question
            rw [slotPriority_eq, step_normal genQ st _ _ _ (by decide), hn, if_pos rfl,
                step_normal genQ st _ _ _ (by decide), htOk, if_pos rfl,
                step_detail, hdq, hfind]
            simp [bne_iff_ne, hq]
          constructor
          · rintro ⟨-, -, -, hall⟩
            rw [hreq] at hall
            obtain ⟨v, hv, hok⟩ :=
              hall f.name (name_mem_required t fields hcfg f hfmem)
            have hpred := List.find?_some hfind
            rw [hv] at hpred
            simp only [Option.elim] at hpred
            have hagree := h3 (f.name, v) (dgetKey_mem _ _ _ hv)
            simp only at hagree
            rw [hagree, hok] at hpred
            exact absurd hpred (by simp)
          · intro hnone
            rw [hsel] at hnone
            exact absurd hnone (by simp)
      | none =>
          have hdqn : detailQuestion st = Except.ok none := by rw [hdq, hfind]
          have hfilled : ∀ f ∈ fields, ((dgetKey d f.name).elim false DVal.truthy) = true := by
            intro f hf
            have := List.find?_eq_none.mp hfind f hf
            simpa using this
          have hd : d ≠ [] := by
            intro hdnil
            obtain ⟨f0, hf0⟩ := List.exists_mem_of_ne_nil fields
              (config_fields_ne_nil t fields hcfg)
            have := hfilled f0 hf0
            rw [hdnil] at this
            simp [dgetKey] at this
          have hallreq : ∀ n ∈ getRequiredFieldsForTipo t,
              ∃ v, dgetKey d n = some v ∧ detailValueOk v = true := by
            intro n hn2
            obtain ⟨f, hf, rfl⟩ := required_mem_name t fields hcfg n hn2
            have := hfilled f hf
            cases hv : dgetKey d f.name with
            | none => rw [hv] at this; exact absurd this (by simp [Option.elim])
            | some v =>
                rw [hv] at this
                simp only [Option.elim] at this
                have hagree := h3 (f.name, v) (dgetKey_mem _ _ _ hv)
                simp only at hagree
                exact ⟨v, rfl, by rw [← hagree]; exact this⟩
          rw [selector_via_post genQ st hn htOk hdqn, hreq]
          constructor
          · rintro ⟨hall, -, -, -⟩
            exact fun f hf => hall f (post_sub_checker f hf)
          · intro hall
            refine ⟨?_, htruthy, hd, hallreq⟩
            intro f hf
            rcases checker_cover f hf with rfl | rfl | h
            · exact hn
            · exact htOk
            · exact hall f h

/-! Frame and idempotence lemmas about the merge. -/

theorem applyEntry_shape (st : ConvState) (k : String) (v : UVal) :
    applyEntry st k v = some st ∨
    (∃ w, applyEntry st k v = some (setKey st k w)) ∨
    applyEntry st k v = none := by
  unfold applyEntry
  split
  · exact Or.inl rfl
  · split
    · exact Or.inl rfl
    · cases v with
      | unull => exact Or.inl rfl
      | udict d =>
          simp only
          split
          · split
            · exact Or.inr (Or.inl ⟨_, rfl⟩)
            · exact Or.inr (Or.inl ⟨_, rfl⟩)
            · exact Or.inr (Or.inr rfl)
          · split
            · exact Or.inl rfl
            · exact Or.inr (Or.inl ⟨_, rfl⟩)
      | ustr s =>
          simp only
          split
          · split
            · exact Or.inr (Or.inl ⟨_, rfl⟩)
            · exact Or.inl rfl
          · exact Or.inr (Or.inl ⟨_, rfl⟩)
      | ubool b =>
          simp only
          split
          · exact Or.inl rfl
          · exact Or.inr (Or.inl ⟨_, rfl⟩)

theorem applyEntry_frame (st : ConvState) (k : String) (v : UVal)
    (st1 : ConvState) (h : applyEntry st k v = some st1) (f : String)
    (hf : f ≠ k) : getKey st1 f = getKey st f := by
  rcases applyEntry_shape st k v with hs | ⟨w, hs⟩ | hs
  · rw [hs] at h
    injection h with he
    rw [← he]
  · rw [hs] at h
    injection h with he
    rw [← he]
    exact getKey_setKey_ne st k f w hf
  · rw [hs] at h
    cases h

theorem applyUpdate_frame (st st1 : ConvState) (U : List (String × UVal))
    (h : applyUpdate st U = some st1) (f : String)
    (hf : keyMem f (U.map Prod.fst) = false) : getKey st1 f = getKey st f := by
  induction U generalizing st with
  | nil =>
      rw [applyUpdate] at h
      injection h with he
      rw [he]
  | cons p rest ih =>
      obtain ⟨k, v⟩ := p
      simp only [List.map_cons, keyMem, Bool.or_eq_false_iff] at hf
      obtain ⟨h1, h2⟩ := hf
      rw [applyUpdate] at h
      cases he : applyEntry st k v with
      | none => rw [he] at h; cases h
      | some RA =>
          rw [he] at h
          rw [ih RA h h2]
          exact applyEntry_frame st k v RA he f
            (Ne.symm (beq_eq_false_iff_ne.mp h1))

/-- Distinct keys of any JSON object carried inside an update value. -/
def uvalObjKeysOk : UVal → Bool
  | .udict dd => keysDistinct (dd.map Prod.fst)
  | _ => true

theorem skipCond_det (st : ConvState) :
    skipCond st "detalles_maquinaria" = false := by
  simp [skipCond]

theorem applyEntry_null (st : ConvState) (k : String) (v : UVal)
    (h : (v == UVal.unull || v == UVal.ustr "") = true) :
    applyEntry st k v = some st := by
  unfold applyEntry
  rw [if_pos h]

theorem applyEntry_skip (st : ConvState) (k : String) (v : UVal)
    (hnull : (v == UVal.unull || v == UVal.ustr "") = false)
    (hskip : skipCond st k = true) : applyEntry st k v = some st := by
  unfold applyEntry
  rw [if_neg (by simp [hnull]), if_pos hskip]

theorem applyEntry_udict_det (st : ConvState) (d : List (String × DVal)) :
    applyEntry st "detalles_maquinaria" (UVal.udict d) =
      (match getKey st "detalles_maquinaria" with
       | none =>
           some (setKey st "detalles_maquinaria" (SVal.sdict (dictUpdate [] d)))
       | some (SVal.sdict d0) =>
           some (setKey st "detalles_maquinaria" (SVal.sdict (dictUpdate d0 d)))
       | some _ => none) := by
  unfold applyEntry
  rw [if_neg (by simp), if_neg (by simp [skipCond_det])]
  simp only [if_pos (show ("detalles_maquinaria" == "detalles_maquinaria") = true from rfl)]

theorem applyEntry_udict_tipo (st : ConvState) (d : List (String × DVal))
    (hskip : skipCond st "tipo_maquinaria" = false) :
    applyEntry st "tipo_maquinaria" (UVal.udict d) = some st := by
  unfold applyEntry
  rw [if_neg (by simp), if_neg (by simp [hskip])]
  rfl

theorem applyEntry_udict_other (st : ConvState) (k : String)
    (d : List (String × DVal)) (hskip : skipCond st k = false)
    (hdet : k ≠ "detalles_maquinaria") (htipo : k ≠ "tipo_maquinaria") :
    applyEntry st k (UVal.udict d) = some (setKey st k (SVal.sdict d)) := by
  unfold applyEntry
  rw [if_neg (by simp), if_neg (by simp [hskip])]
  simp only [if_neg (show ¬((k == "detalles_maquinaria") = true) by simpa using hdet),
    if_neg (show ¬((k == "tipo_maquinaria") = true) by simpa using htipo)]

theorem applyEntry_ustr_tipo (st : ConvState) (s : String)
    (hnull : (UVal.ustr s == UVal.unull || UVal.ustr s == UVal.ustr "") = false)
    (hskip : skipCond st "tipo_maquinaria" = false) :
    applyEntry st "tipo_maquinaria" (UVal.ustr s) =
      (match MaquinariaType.ofValue? s with
       | some t => some (setKey st "tipo_maquinaria" (SVal.senum t))
       | none => some st) := by
  unfold applyEntry
  rw [if_neg (by simp [hnull]), if_neg (by simp [hskip])]
  simp only [if_pos (show ("tipo_maquinaria" == "tipo_maquinaria") = true from rfl)]

theorem applyEntry_ustr_other (st : ConvState) (k : String) (s : String)
    (hnull : (UVal.ustr s == UVal.unull || UVal.ustr s == UVal.ustr "") = false)
    (hskip : skipCond st k = false) (htipo : k ≠ "tipo_maquinaria") :
    applyEntry st k (UVal.ustr s) = some (setKey st k (SVal.sstr s)) := by
  unfold applyEntry
  rw [if_neg (by simp [hnull]), if_neg (by simp [hskip])]
  simp only [if_neg (show ¬((k == "tipo_maquinaria") = true) by simpa using htipo)]

theorem applyEntry_ubool_tipo (st : ConvState) (b : Bool)
    (hskip : skipCond st "tipo_maquinaria" = false) :
    applyEntry st "tipo_maquinaria" (UVal.ubool b) = some st := by
  unfold applyEntry
  rw [if_neg (by simp), if_neg (by simp [hskip])]
  rfl

theorem applyEntry_ubool_other (st : ConvState) (k : String) (b : Bool)
    (hskip : skipCond st k = false) (htipo : k ≠ "tipo_maquinaria") :
    applyEntry st k (UVal.ubool b) = some (setKey st k (SVal.sbool b)) := by
  unfold applyEntry
  rw [if_neg (by simp), if_neg (by simp [hskip])]
  simp only [if_neg (show ¬((k == "tipo_maquinaria") = true) by simpa using htipo)]

theorem skipCond_congr (st st1 : ConvState) (k : String)
    (h : getKey st1 k = getKey st k) : skipCond st1 k = skipCond st k := by
  unfold skipCond
  rw [h]

/-- Re-applying an already-applied entry at any state whose value under its
key agrees with the state the first application produced is a no-op. -/
theorem applyEntry_second (st R1 : ConvState) (k : String) (v : UVal)
    (RA : ConvState) (he : applyEntry st k v = some RA)
    (hkeys : uvalObjKeysOk v = true)
    (hsame : getKey R1 k = getKey RA k) :
    applyEntry R1 k v = some R1 := by
  by_cases hnull : (v == UVal.unull || v == UVal.ustr "") = true
  · exact applyEntry_null R1 k v hnull
  · have hnull' : (v == UVal.unull || v == UVal.ustr "") = false := by
      simpa using hnull
    by_cases hdet : k = "detalles_maquinaria"
    · subst hdet
      cases v with
      | unull => exact absurd (by decide) hnull
      | udict dd =>
          rw [applyEntry_udict_det] at he
          have hget : ∃ d0, getKey R1 "detalles_maquinaria" =
              some (SVal.sdict (dictUpdate d0 dd)) := by
            cases hcur : getKey st "detalles_maquinaria" with
            | none =>
                rw [hcur] at he
                simp only at he
                injection he with heq
                rw [hsame, ← heq, getKey_setKey_same]
                exact ⟨[], rfl⟩
            | some sv =>
                cases sv with
                | sdict d0 =>
                    rw [hcur] at he
                    simp only at he
                    injection he with heq
                    rw [hsame, ← heq, getKey_setKey_same]
                    exact ⟨d0, rfl⟩
                | snull => rw [hcur] at he; simp at he
                | sstr s => rw [hcur] at he; simp at he
                | sbool b => rw [hcur] at he; simp at he
                | senum t => rw [hcur] at he; simp at he
          obtain ⟨d0, hget⟩ := hget
          rw [applyEntry_udict_det, hget]
          simp only
          rw [dictUpdate_idem d0 dd (by simpa [uvalObjKeysOk] using hkeys),
            setKey_self R1 "detalles_maquinaria" _ hget]
      | ustr s =>
          rw [applyEntry_ustr_other st _ s hnull' (skipCond_det st) (by decide)] at he
          injection he with heq
          have hget : getKey R1 "detalles_maquinaria" = some (SVal.sstr s) := by
            rw [hsame, ← heq, getKey_setKey_same]
          rw [applyEntry_ustr_other R1 _ s hnull' (skipCond_det R1) (by decide),
            setKey_self R1 "detalles_maquinaria" _ hget]
      | ubool b =>
          rw [applyEntry_ubool_other st _ b (skipCond_det st) (by decide)] at he
          injection he with heq
          have hget : getKey R1 "detalles_maquinaria" = some (SVal.sbool b) := by
            rw [hsame, ← heq, getKey_setKey_same]
          rw [applyEntry_ubool_other R1 _ b (skipCond_det R1) (by decide),
            setKey_self R1 "detalles_maquinaria" _ hget]
    · cases hskip : skipCond st k with
      | true =>
          rw [applyEntry_skip st k v hnull' hskip] at he
          injection he with heq
          have hskip1 : skipCond R1 k = true := by
            rw [skipCond_congr st R1 k (by rw [hsame, ← heq])]
            exact hskip
          exact applyEntry_skip R1 k v hnull' hskip1
      | false =>
          by_cases htipo : k = "tipo_maquinaria"
          · subst htipo
            cases v with
            | unull => exact absurd (by decide) hnull
            | ustr s =>
                rw [applyEntry_ustr_tipo st s hnull' hskip] at he
                cases hparse : MaquinariaType.ofValue? s with
                | some t =>
                    rw [hparse] at he
                    simp only at he
                    injection he with heq
                    have hget : getKey R1 "tipo_maquinaria" =
                        some (SVal.senum t) := by
                      rw [hsame, ← heq, getKey_setKey_same]
                    have hskip1 : skipCond R1 "tipo_maquinaria" = true := by
                      simp [skipCond, hget, SVal.truthy, senum_not_inSkipList]
                    exact applyEntry_skip R1 _ _ hnull' hskip1
                | none =>
                    rw [hparse] at he
                    simp only at he
                    injection he with heq
                    have hskip1 : skipCond R1 "tipo_maquinaria" = false := by
                      rw [skipCond_congr st R1 _ (by rw [hsame, ← heq])]
                      exact hskip
                    rw [applyEntry_ustr_tipo R1 s hnull' hskip1, hparse]
            | ubool b =>
                rw [applyEntry_ubool_tipo st b hskip] at he
                injection he with heq
                have hskip1 : skipCond R1 "tipo_maquinaria" = false := by
                  rw [skipCond_congr st R1 _ (by rw [hsame, ← heq])]
                  exact hskip
                exact applyEntry_ubool_tipo R1 b hskip1
            | udict dd =>
                rw [applyEntry_udict_tipo st dd hskip] at he
                injection he with heq
                have hskip1 : skipCond R1 "tipo_maquinaria" = false := by
                  rw [skipCond_congr st R1 _ (by rw [hsame, ← heq])]
                  exact hskip
                exact applyEntry_udict_tipo R1 dd hskip1
          · cases v with
            | unull => exact absurd (by decide) hnull
            | ustr s =>
                rw [applyEntry_ustr_other st k s hnull' hskip htipo] at he
                injection he with heq
                have hget : getKey R1 k = some (SVal.sstr s) := by
                  rw [hsame, ← heq, getKey_setKey_same]
                cases hskip1 : skipCond R1 k with
                | true => exact applyEntry_skip R1 k _ hnull' hskip1
                | false =>
                    rw [applyEntry_ustr_other R1 k s hnull' hskip1 htipo,
                      setKey_self R1 k _ hget]
            | ubool b =>
                rw [applyEntry_ubool_other st k b hskip htipo] at he
                injection he with heq
                have hget : getKey R1 k = some (SVal.sbool b) := by
                  rw [hsame, ← heq, getKey_setKey_same]
                cases hskip1 : skipCond R1 k with
                | true => exact applyEntry_skip R1 k _ hnull' hskip1
                | false =>
                    rw [applyEntry_ubool_other R1 k b hskip1 htipo,
                      setKey_self R1 k _ hget]
            | udict dd =>
                rw [applyEntry_udict_other st k dd hskip hdet htipo] at he
                injection he with heq
                have hget : getKey R1 k = some (SVal.sdict dd) := by
                  rw [hsame, ← heq, getKey_setKey_same]
                cases hskip1 : skipCond R1 k with
                | true => exact applyEntry_skip R1 k _ hnull' hskip1
                | false =>
                    rw [applyEntry_udict_other R1 k dd hskip1 hdet htipo,
                      setKey_self R1 k _ hget]

theorem applyEntry_protected (st : ConvState) (k : String) (w : UVal)
    (v : SVal) (hk : k ≠ "detalles_maquinaria") (hv : getKey st k = some v)
    (ht : v.truthy = true) (hs : v.inSkipList = false) :
    applyEntry st k w = some st := by
  by_cases hnull : (w == UVal.unull || w == UVal.ustr "") = true
  · exact applyEntry_null st k w hnull
  · refine applyEntry_skip st k w (by simpa using hnull) ?_
    simp [skipCond, hv, ht, hs, bne_iff_ne, hk]

/-! Claim theorems for the merge. -/

/-- C3 (amended): a top-level field other than the machinery-detail sub-map
whose current value is truthy and outside the merge skip list (so in
particular any non-empty string other than the sentinels No tiene and
No especificado) is never changed by applying an update map, whatever
entries the map carries; sentinel-valued fields, by contrast, are
overwritable, and the merge has no surname special case at all (the surname
is written as an ordinary field). This corrects the claim that every
non-empty string value, sentinels included, is protected. -/
theorem c3_no_clobber (R R1 : ConvState) (f : String) (v : SVal)
    (U : List (String × UVal)) (hf : f ≠ "detalles_maquinaria")
    (hv : getKey R f = some v) (ht : v.truthy = true)
    (hs : v.inSkipList = false) (h : applyUpdate R U = some R1) :
    getKey R1 f = some v := by
  induction U generalizing R with
  | nil =>
      rw [applyUpdate] at h
      injection h with he
      rw [← he]
      exact hv
  | cons p rest ih =>
      obtain ⟨k, w⟩ := p
      rw [applyUpdate] at h
      cases he : applyEntry R k w with
      | none => rw [he] at h; cases h
      | some RA =>
          rw [he] at h
          by_cases hkf : k = f
          · subst hkf
            rw [applyEntry_protected R k w v hf hv ht hs] at he
            injection he with heq
            exact ih RA (by rw [← heq]; exact hv) h
          · exact ih RA
              (by rw [applyEntry_frame R k w RA he f (fun hh => hkf hh.symm)]
                  exact hv) h

/-- C4 (confirmed): applying the same extracted-info map twice gives the same
state as applying it once, whenever the keys of the map and of any machinery-
detail sub-object in it are distinct (they are: Python dicts and JSON objects
cannot repeat keys) and the first application did not raise. -/
theorem c4_apply_idempotent (R : ConvState) (U : List (String × UVal))
    (R1 : ConvState) (hU : keysDistinct (U.map Prod.fst) = true)
    (hobj : U.all (fun p => uvalObjKeysOk p.2) = true)
    (h : applyUpdate R U = some R1) :
    applyUpdate R1 U = some R1 := by
  induction U generalizing R with
  | nil => rfl
  | cons p rest ih =>
      obtain ⟨k, v⟩ := p
      simp only [List.map_cons, keysDistinct, Bool.and_eq_true,
        Bool.not_eq_true'] at hU
      obtain ⟨h1, h2⟩ := hU
      simp only [List.all_cons, Bool.and_eq_true] at hobj
      obtain ⟨ho1, ho2⟩ := hobj
      rw [applyUpdate] at h
      cases he : applyEntry R k v with
      | none => rw [he] at h; cases h
      | some RA =>
          rw [he] at h
          have hsame : getKey R1 k = getKey RA k :=
            applyUpdate_frame RA R1 rest h k h1
          have hre : applyEntry R1 k v = some R1 :=
            applyEntry_second R R1 k v RA he ho1 hsame
          rw [applyUpdate, hre]
          exact ih RA h2 ho2 h

/-- C2 (amended): an update whose detalles_maquinaria entry carries a
sub-map is merged into the existing sub-map with dict.update: looking any
sub-key up in the merged sub-map gives the update value when the update
carries that sub-key — existing sub-keys are overwritten, not preserved —
and the previous value otherwise; sub-keys absent from the update survive
unchanged and new sub-keys are added. This corrects the claim that existing
non-empty sub-keys keep their previous value. -/
theorem c2_detalles_merge (R : ConvState) (d0 d : List (String × DVal))
    (k : String)
    (h0 : getKey R "detalles_maquinaria" = some (SVal.sdict d0))
    (hnd : keysDistinct (d.map Prod.fst) = true) :
    applyUpdate R [("detalles_maquinaria", UVal.udict d)] =
      some (setKey R "detalles_maquinaria" (SVal.sdict (dictUpdate d0 d))) ∧
    dgetKey (dictUpdate d0 d) k =
      (match dgetKey d k with
       | some v => some v
       | none => dgetKey d0 k) := by
  constructor
  · rw [applyUpdate, applyEntry_udict_det R d, h0]
    rfl
  · exact dgetKey_dictUpdate d0 d k hnd

/-- C5 (amended): when the record already holds a first name and an update
carrying a surname is applied, the record keeps its name field unchanged and
stores the surname as an ordinary standalone field — the merge performs no
concatenation; the concatenation of first name and surname exists only in
the firstname property computed for the CRM contact update, which is the
stripped string "first surname" followed by the literal " Prueba Bot". This
corrects the claim that the record name field itself becomes
"first surname". -/
theorem c5_surname_update (R : ConvState) (n a : String)
    (hn : getKey R "nombre" = some (SVal.sstr n)) (hn2 : n ≠ "") (ha : a ≠ "")
    (hap : getKey R "apellido" = none ∨ getKey R "apellido" = some SVal.snull) :
    applyUpdate R [("apellido", UVal.ustr a)] =
      some (setKey R "apellido" (SVal.sstr a)) ∧
    getKey (setKey R "apellido" (SVal.sstr a)) "nombre" = some (SVal.sstr n) ∧
    getKey (setKey R "apellido" (SVal.sstr a)) "apellido" = some (SVal.sstr a) ∧
    updateContactFirstname R [("apellido", UVal.ustr a)] =
      Except.ok (some (pyStrip (n ++ " " ++ a) ++ " Prueba Bot")) := by
  have hnull : (UVal.ustr a == UVal.unull || UVal.ustr a == UVal.ustr "") = false := by
    simp [ha]
  have hskip : skipCond R "apellido" = false := by
    rcases hap with h | h <;>
      simp [skipCond, h, SVal.truthy, SVal.inSkipList]
  refine ⟨?_, ?_, ?_, ?_⟩
  · rw [applyUpdate, applyEntry_ustr_other R "apellido" a hnull hskip (by decide)]
    rfl
  · rw [getKey_setKey_ne _ _ _ _ (by decide)]
    exact hn
  · exact getKey_setKey_same R "apellido" (SVal.sstr a)
  · unfold updateContactFirstname updateContactFirstnameGo firstnameStep
    simp [hubspotSkip, hn, SVal.truthy, UVal.truthy, SVal.pyStr, UVal.pyStr,
      hn2, ha, updateContactFirstnameGo]

/-- C6 (amended): the completion checker returns true exactly when every one
of its ten required top-level fields — the optional company-website field
included — holds a truthy, non-sentinel value, the machinery-detail dict is
non-empty, and every required detail field of the selected enum machinery
type is present with a non-null, non-empty value other than No especificado.
There is no minimum token count on the name. This corrects the claim that a
two-token name is required and that the website field does not matter. -/
theorem c6_completeness_characterization (st : ConvState)
    (d : List (String × DVal))
    (h1 : getKey st "tipo_maquinaria" = none ∨
          getKey st "tipo_maquinaria" = some SVal.snull ∨
          ∃ t, getKey st "tipo_maquinaria" = some (SVal.senum t))
    (h2 : (getKey st "detalles_maquinaria").getD (SVal.sdict []) = SVal.sdict d) :
    (is_conversation_complete st = true ↔
      ((∀ f ∈ checkerRequiredFields, fieldOk st f = true) ∧ d ≠ [] ∧
       ∀ t, getKey st "tipo_maquinaria" = some (SVal.senum t) →
         ∀ n ∈ getRequiredFieldsForTipo t,
           ∃ v, dgetKey d n = some v ∧ detailValueOk v = true)) := by
  rw [checker_char st d h2]
  constructor
  · rintro ⟨hall, htr, hd, hreq⟩
    refine ⟨hall, hd, ?_⟩
    intro t heq n hn
    apply hreq
    rw [heq]
    exact hn
  · rintro ⟨hall, hd, hreq⟩
    have htOk := hall "tipo_maquinaria" (by simp [checkerRequiredFields])
    obtain ⟨t, heq⟩ : ∃ t, getKey st "tipo_maquinaria" = some (SVal.senum t) := by
      rcases h1 with h | h | h
      · rw [fieldOk, h] at htOk
        exact absurd htOk Bool.false_ne_true
      · rw [fieldOk, h] at htOk
        exact absurd htOk Bool.false_ne_true
      · exact h
    refine ⟨hall, by rw [heq]; rfl, hd, ?_⟩
    intro n hn
    rw [heq] at hn
    exact hreq t heq n hn

/-- C7 (amended): the extraction context is built from the most recent
assistant log entry whatever its content: when that entry contains a
question mark the last non-blank line containing one is returned stripped,
and otherwise the entry content is returned whole — assistant entries
without a question mark are not skipped; the result is none only when the
log has no assistant entry at all. This corrects the claim that the scan
skips assistant entries lacking a question mark. -/
theorem c7_last_bot_question (msgs : List ChatMsg) :
    lastBotQuestion msgs =
      (msgs.reverse.find? (fun m => m.role == "assistant")).map
        (fun m => questionFromContent m.content) := by
  rw [lastBotQuestion]
  generalize msgs.reverse = l
  induction l with
  | nil => rfl
  | cons m rest ih =>
      cases hr : (m.role == "assistant") <;>
        simp [lastBotQuestionAux, List.find?_cons, hr, ih]

/-- C8 (amended): the store append performed for every accepted inbound
message carries no duplicate-delivery protection: even when the
transport-provided WhatsApp message id already appears among the stored
entries, add_single_message appends a new formatted entry, so the log grows
by one and ends with the repeated id. This corrects the claim that a
message whose id matches a recent log entry is discarded. -/
theorem c8_duplicate_append (log : List CosmosMsg)
    (content waMsgId msgId ts : String)
    (hdup : waMsgId ∈ log.map (fun m => m.whatsappMessageId)) :
    (addSingleMessage log content waMsgId msgId ts).length = log.length + 1 ∧
    (addSingleMessage log content waMsgId msgId ts).map
        (fun m => m.whatsappMessageId) =
      log.map (fun m => m.whatsappMessageId) ++ [waMsgId] := by
  unfold addSingleMessage
  constructor
  · simp
  · simp

theorem formatMessages_msgCore (now : String) (n : Nat) (msgs : List ChatMsg)
    (hmsg : ∀ m ∈ msgs,
      (∃ s, m.sender = some s ∧
        m.role = (if s == "lead" then "user" else "assistant")) ∧
      m.timestamp.isSome) :
    (formatMessagesFrom now n msgs).map (fun cm => msgCore (convMsg cm)) =
      msgs.map msgCore := by
  induction msgs generalizing n with
  | nil => rfl
  | cons m rest ih =>
      obtain ⟨⟨s, hs, hrole⟩, hts⟩ := hmsg m (List.mem_cons_self _ _)
      obtain ⟨ts, hts2⟩ := Option.isSome_iff_exists.mp hts
      simp only [formatMessagesFrom, List.map_cons]
      rw [ih (n + 1) (fun m2 hm2 => hmsg m2 (List.mem_cons_of_mem _ hm2))]
      simp [msgCore, convMsg, hs, hts2, hrole]

/-- C9 (confirmed): saving a conversation record to its Cosmos document and
loading it back preserves every record field — all lead fields, the
completed flag, the conversation mode, the assigned-agent and CRM contact
references — with the machinery-type enum round-tripping through its string
value, and preserves the behavioural core (role, content, sender, timestamp)
of every log message, provided each stored message carries a sender
consistent with its role and a timestamp. -/
theorem c9_round_trip (userId now : String) (st : StateRec)
    (hmsg : ∀ m ∈ st.messages,
      (∃ s, m.sender = some s ∧
        m.role = (if s == "lead" then "user" else "assistant")) ∧
      m.timestamp.isSome) :
    (roundTripState userId now st).nombre = st.nombre ∧
    (roundTripState userId now st).apellido = st.apellido ∧
    (roundTripState userId now st).tipo_maquinaria = st.tipo_maquinaria ∧
    (roundTripState userId now st).detalles_maquinaria = st.detalles_maquinaria ∧
    (roundTripState userId now st).sitio_web = st.sitio_web ∧
    (roundTripState userId now st).uso_empresa_o_venta = st.uso_empresa_o_venta ∧
    (roundTripState userId now st).nombre_completo = st.nombre_completo ∧
    (roundTripState userId now st).nombre_empresa = st.nombre_empresa ∧
    (roundTripState userId now st).giro_empresa = st.giro_empresa ∧
    (roundTripState userId now st).correo = st.correo ∧
    (roundTripState userId now st).telefono = st.telefono ∧
    (roundTripState userId now st).completed = st.completed ∧
    (roundTripState userId now st).lugar_requerimiento = st.lugar_requerimiento ∧
    (roundTripState userId now st).conversation_mode = st.conversation_mode ∧
    (roundTripState userId now st).asignado_asesor = st.asignado_asesor ∧
    (roundTripState userId now st).hubspot_contact_id = st.hubspot_contact_id ∧
    (roundTripState userId now st).messages.map msgCore = st.messages.map msgCore ∧
    (∀ t : MaquinariaType, MaquinariaType.ofValue? t.value = some t) := by
  unfold roundTripState conversationStateToCosmos cosmosToConversationState
  refine ⟨rfl, rfl, ?_, rfl, rfl, rfl, rfl, rfl, rfl, rfl, rfl, rfl, rfl, rfl,
    rfl, rfl, ?_, fun t => ofValue_value t⟩
  · cases htm : st.tipo_maquinaria with
    | none => rfl
    | some t =>
        simp [beq_eq_false_iff_ne.mpr (value_ne_empty t), ofValue_value t]
  · simp only [List.map_map]
    rw [show (msgCore ∘ convMsg) = (fun cm => msgCore (convMsg cm)) from rfl]
    exact formatMessages_msgCore now 0 st.messages hmsg

/-- C10 (confirmed): a missing or whitespace-only user message makes
send_message return the empty reply immediately: the conversation state is
returned untouched, nothing is appended to the log, the extraction, merge
and response generation (the continuation k) never run, and nothing is
persisted. -/
theorem c10_blank_message (k : ConvState → String → String × ConvState × Bool)
    (st : ConvState) (msg : String) (h : msg = "" ∨ pyStrip msg = "") :
    sendMessageGuard k st msg = ("", st, false) := by
  unfold sendMessageGuard
  rcases h with rfl | h
  · simp
  · simp [h]

/-! Concrete inputs: counterexamples and witnesses. -/

/-- A concrete stand-in for the LLM-backed question generator. -/
def c1GenQ : String → String → ConvState → String := fun _ _ _ => ""

/-- An extraction result filling every slot, with the LED detail answered
negatively (es_led false), as the extraction prompt instructs for the light
tower type. -/
def c1Update : List (String × UVal) :=
  [("nombre", UVal.ustr "Ana"),
   ("tipo_maquinaria", UVal.ustr "torre_iluminacion"),
   ("detalles_maquinaria", UVal.udict [("es_led", DVal.dbool false)]),
   ("lugar_requerimiento", UVal.ustr "CDMX"),
   ("uso_empresa_o_venta", UVal.ustr "venta"),
   ("nombre_empresa", UVal.ustr "ACME"),
   ("sitio_web", UVal.ustr "acme.mx"),
   ("giro_empresa", UVal.ustr "construccion"),
   ("nombre_completo", UVal.ustr "Ana Lopez"),
   ("correo", UVal.ustr "ana@acme.mx"),
   ("telefono", UVal.ustr "5551234")]

/-- The state reached by merging c1Update into the empty state. -/
def c1CexState : ConvState :=
  [("nombre", SVal.sstr "Ana"),
   ("tipo_maquinaria", SVal.senum MaquinariaType.TORRE_ILUMINACION),
   ("detalles_maquinaria", SVal.sdict [("es_led", DVal.dbool false)]),
   ("sitio_web", SVal.sstr "acme.mx"),
   ("uso_empresa_o_venta", SVal.sstr "venta"),
   ("nombre_completo", SVal.sstr "Ana Lopez"),
   ("nombre_empresa", SVal.sstr "ACME"),
   ("giro_empresa", SVal.sstr "construccion"),
   ("correo", SVal.sstr "ana@acme.mx"),
   ("telefono", SVal.sstr "5551234"),
   ("completed", SVal.sbool false),
   ("lugar_requerimiento", SVal.sstr "CDMX"),
   ("conversation_mode", SVal.sstr "bot"),
   ("asignado_asesor", SVal.snull)]

/-- C1 counterexample: a state reachable in one merge from the empty state —
every slot answered, the light tower selected, es_led extracted as false —
on which the completion checker says the conversation is complete while the
next-question selector still returns the LED question, refuting the claimed
equivalence. -/
theorem c1_counterexample :
    applyUpdate emptyState c1Update = some c1CexState ∧
    is_conversation_complete c1CexState = true ∧
    get_next_question c1GenQ c1CexState ≠ none := by decide

/-- A fully answered state whose LED detail is a non-empty string. -/
def c1WitState : ConvState :=
  [("nombre", SVal.sstr "Ana"),
   ("tipo_maquinaria", SVal.senum MaquinariaType.TORRE_ILUMINACION),
   ("detalles_maquinaria", SVal.sdict [("es_led", DVal.dstr "si")]),
   ("sitio_web", SVal.sstr "acme.mx"),
   ("uso_empresa_o_venta", SVal.sstr "venta"),
   ("nombre_completo", SVal.sstr "Ana Lopez"),
   ("nombre_empresa", SVal.sstr "ACME"),
   ("giro_empresa", SVal.sstr "construccion"),
   ("correo", SVal.sstr "ana@acme.mx"),
   ("telefono", SVal.sstr "5551234"),
   ("completed", SVal.sbool false),
   ("lugar_requerimiento", SVal.sstr "CDMX"),
   ("conversation_mode", SVal.sstr "bot"),
   ("asignado_asesor", SVal.snull)]

/-- C1 witness: on a concrete well-behaved state the agreement theorem
applies and both sides hold. -/
theorem c1_witness :
    is_conversation_complete c1WitState = true ∧
    get_next_question c1GenQ c1WitState = none :=
  ⟨by decide,
   (selector_checker_agreement c1GenQ c1WitState [("es_led", DVal.dstr "si")]
     (Or.inr (Or.inr ⟨MaquinariaType.TORRE_ILUMINACION, rfl⟩)) rfl
     (by decide) (fun _ _ _ => by decide)).mp (by decide)⟩

def c2State : ConvState :=
  [("detalles_maquinaria", SVal.sdict [("amperaje", DVal.dstr "300")])]

/-- C2 counterexample: the amperaje sub-key already holds the non-empty
value 300, yet merging an update whose sub-map carries amperaje 500
overwrites it, refuting the claim that existing non-empty sub-keys keep
their previous value. -/
theorem c2_counterexample :
    applyUpdate c2State
        [("detalles_maquinaria", UVal.udict [("amperaje", DVal.dstr "500")])] =
      some [("detalles_maquinaria", SVal.sdict [("amperaje", DVal.dstr "500")])] ∧
    dgetKey [("amperaje", DVal.dstr "500")] "amperaje" ≠
      some (DVal.dstr "300") := by decide

/-- C2 witness: the merge-characterization theorem applied at a concrete
record, update and sub-key. -/
theorem c2_witness :
    applyUpdate c2State [("detalles_maquinaria", UVal.udict [("electrodo", DVal.dstr "6013")])] =
      some (setKey c2State "detalles_maquinaria"
        (SVal.sdict (dictUpdate [("amperaje", DVal.dstr "300")]
          [("electrodo", DVal.dstr "6013")]))) ∧
    dgetKey (dictUpdate [("amperaje", DVal.dstr "300")]
        [("electrodo", DVal.dstr "6013")]) "amperaje" =
      (match dgetKey [("electrodo", DVal.dstr "6013")] "amperaje" with
       | some v => some v
       | none => dgetKey [("amperaje", DVal.dstr "300")] "amperaje") :=
  c2_detalles_merge c2State [("amperaje", DVal.dstr "300")]
    [("electrodo", DVal.dstr "6013")] "amperaje" rfl (by decide)

def c3State : ConvState := [("sitio_web", SVal.sstr "No tiene")]

/-- C3 counterexample: sitio_web holds the non-empty sentinel string
No tiene, yet applying an update containing sitio_web replaces it, refuting
the claim that every non-empty string value — sentinels included — is left
unchanged. -/
theorem c3_counterexample :
    getKey c3State "sitio_web" = some (SVal.sstr "No tiene") ∧
    applyUpdate c3State [("sitio_web", UVal.ustr "acme.mx")] =
      some [("sitio_web", SVal.sstr "acme.mx")] ∧
    SVal.sstr "acme.mx" ≠ SVal.sstr "No tiene" := by decide

/-- C3 witness: the no-clobber theorem applied at a concrete record holding
a real (non-sentinel) value. -/
theorem c3_witness :
    getKey [("correo", SVal.sstr "a@b.mx")] "correo" =
      some (SVal.sstr "a@b.mx") :=
  c3_no_clobber [("correo", SVal.sstr "a@b.mx")]
    [("correo", SVal.sstr "a@b.mx")] "correo" (SVal.sstr "a@b.mx")
    [("correo", UVal.ustr "c@d.mx")] (by decide) (by decide) (by decide)
    (by decide) (by decide)

/-- An update map exercising the null-skip, sentinel, enum-parse and
sub-map branches of the merge at once. -/
def c4U : List (String × UVal) :=
  [("nombre", UVal.ustr "Ana"),
   ("sitio_web", UVal.ustr "No tiene"),
   ("tipo_maquinaria", UVal.ustr "soldadora"),
   ("detalles_maquinaria", UVal.udict [("amperaje", DVal.dstr "300")]),
   ("correo", UVal.unull)]

/-- The state produced by applying c4U to the empty state once. -/
def c4R1 : ConvState :=
  [("nombre", SVal.sstr "Ana"),
   ("tipo_maquinaria", SVal.senum MaquinariaType.SOLDADORAS),
   ("detalles_maquinaria", SVal.sdict [("amperaje", DVal.dstr "300")]),
   ("sitio_web", SVal.sstr "No tiene"),
   ("uso_empresa_o_venta", SVal.snull),
   ("nombre_completo", SVal.snull),
   ("nombre_empresa", SVal.snull),
   ("giro_empresa", SVal.snull),
   ("correo", SVal.snull),
   ("telefono", SVal.snull),
   ("completed", SVal.sbool false),
   ("lugar_requerimiento", SVal.snull),
   ("conversation_mode", SVal.sstr "bot"),
   ("asignado_asesor", SVal.snull)]

/-- C4 witness: applying the concrete map a second time to the state its
first application produced changes nothing. -/
theorem c4_witness : applyUpdate c4R1 c4U = some c4R1 :=
  c4_apply_idempotent emptyState c4U c4R1 (by decide) (by decide) (by decide)

def c5R : ConvState := [("nombre", SVal.sstr "Paco")]

/-- C5 counterexample: the record holds first name Paco and the update
carries surname Perez; after the merge the record name field is still Paco,
not Paco Perez, refuting the claimed concatenation into the record. -/
theorem c5_counterexample :
    applyUpdate c5R [("apellido", UVal.ustr "Perez")] =
      some [("nombre", SVal.sstr "Paco"), ("apellido", SVal.sstr "Perez")] ∧
    getKey [("nombre", SVal.sstr "Paco"), ("apellido", SVal.sstr "Perez")]
        "nombre" ≠ some (SVal.sstr "Paco Perez") ∧
    getKey [("nombre", SVal.sstr "Paco"), ("apellido", SVal.sstr "Perez")]
        "apellido" = some (SVal.sstr "Perez") := by decide

/-- C5 witness: the surname-update theorem applied at a concrete record. -/
theorem c5_witness :
    applyUpdate c5R [("apellido", UVal.ustr "Lopez")] =
      some (setKey c5R "apellido" (SVal.sstr "Lopez")) ∧
    getKey (setKey c5R "apellido" (SVal.sstr "Lopez")) "nombre" =
      some (SVal.sstr "Paco") ∧
    getKey (setKey c5R "apellido" (SVal.sstr "Lopez")) "apellido" =
      some (SVal.sstr "Lopez") ∧
    updateContactFirstname c5R [("apellido", UVal.ustr "Lopez")] =
      Except.ok (some (pyStrip ("Paco" ++ " " ++ "Lopez") ++ " Prueba Bot")) :=
  c5_surname_update c5R "Paco" "Lopez" (by decide) (by decide) (by decide)
    (Or.inl (by decide))

/-- A state the checker accepts whose name is the single token Paco. -/
def c6State : ConvState :=
  [("nombre", SVal.sstr "Paco"),
   ("tipo_maquinaria", SVal.senum MaquinariaType.TORRE_ILUMINACION),
   ("detalles_maquinaria", SVal.sdict [("es_led", DVal.dstr "si")]),
   ("sitio_web", SVal.sstr "acme.mx"),
   ("uso_empresa_o_venta", SVal.sstr "venta"),
   ("nombre_completo", SVal.sstr "Paco"),
   ("nombre_empresa", SVal.sstr "ACME"),
   ("giro_empresa", SVal.sstr "construccion"),
   ("correo", SVal.sstr "a@b.mx"),
   ("telefono", SVal.sstr "5551234"),
   ("completed", SVal.sbool false),
   ("lugar_requerimiento", SVal.sstr "CDMX"),
   ("conversation_mode", SVal.sstr "bot"),
   ("asignado_asesor", SVal.snull)]

/-- The same state with the optional website answered negatively. -/
def c6StateNoWeb : ConvState :=
  [("nombre", SVal.sstr "Paco"),
   ("tipo_maquinaria", SVal.senum MaquinariaType.TORRE_ILUMINACION),
   ("detalles_maquinaria", SVal.sdict [("es_led", DVal.dstr "si")]),
   ("sitio_web", SVal.sstr "No tiene"),
   ("uso_empresa_o_venta", SVal.sstr "venta"),
   ("nombre_completo", SVal.sstr "Paco"),
   ("nombre_empresa", SVal.sstr "ACME"),
   ("giro_empresa", SVal.sstr "construccion"),
   ("correo", SVal.sstr "a@b.mx"),
   ("telefono", SVal.sstr "5551234"),
   ("completed", SVal.sbool false),
   ("lugar_requerimiento", SVal.sstr "CDMX"),
   ("conversation_mode", SVal.sstr "bot"),
   ("asignado_asesor", SVal.snull)]

/-- C6 counterexample: the checker accepts a record whose name is the single
whitespace-separated token Paco, and rejecting the same record only because
its optional website field holds the sentinel No tiene shows the result does
depend on the website field; both refute the claim. -/
theorem c6_counterexample :
    is_conversation_complete c6State = true ∧
    getKey c6State "nombre" = some (SVal.sstr "Paco") ∧
    ((pySplitOn "Paco" ' ').filter (fun w => w != "")).length = 1 ∧
    is_conversation_complete c6StateNoWeb = false := by decide

/-- C6 witness: the characterization theorem applied at the concrete
accepted state. -/
theorem c6_witness :
    is_conversation_complete c6State = true ↔
      ((∀ f ∈ checkerRequiredFields, fieldOk c6State f = true) ∧
       ([("es_led", DVal.dstr "si")] : List (String × DVal)) ≠ [] ∧
       ∀ t, getKey c6State "tipo_maquinaria" = some (SVal.senum t) →
         ∀ n ∈ getRequiredFieldsForTipo t,
           ∃ v, dgetKey [("es_led", DVal.dstr "si")] n = some v ∧
             detailValueOk v = true) :=
  c6_completeness_characterization c6State [("es_led", DVal.dstr "si")]
    (Or.inr (Or.inr ⟨MaquinariaType.TORRE_ILUMINACION, rfl⟩)) rfl

def c7Msgs : List ChatMsg :=
  [⟨"assistant", "¿Me das tu nombre?", none, none, none, none⟩,
   ⟨"user", "Paco", none, none, none, none⟩,
   ⟨"assistant", "Gracias por la informacion.", none, none, none, none⟩]

/-- C7 counterexample: the most recent assistant entry carries no question
mark, yet the scan returns it instead of skipping back to the earlier
assistant entry that does contain one, refuting the claimed backward search
for an entry containing a question mark. -/
theorem c7_counterexample :
    lastBotQuestion c7Msgs = some "Gracias por la informacion." ∧
    (pyContains "Gracias por la informacion." '?') = false ∧
    lastBotQuestion c7Msgs ≠ some "¿Me das tu nombre?" := by decide

def c8Log : List CosmosMsg :=
  [⟨"msg_1", "wamid.A", "lead", "hola", "", "t1", true, false⟩]

/-- C8 counterexample: redelivering the id wamid.A already stored in the
last log entry still appends a second entry with the same id — the log
grows and holds the id twice, refuting the claimed discard of duplicate
deliveries. -/
theorem c8_counterexample :
    (addSingleMessage c8Log "hola" "wamid.A" "msg_2" "t2").length = 2 ∧
    (addSingleMessage c8Log "hola" "wamid.A" "msg_2" "t2").map
        (fun m => m.whatsappMessageId) = ["wamid.A", "wamid.A"] := by decide

/-- C8 witness: the append theorem applied at the concrete duplicated id. -/
theorem c8_witness :
    (addSingleMessage c8Log "hola" "wamid.A" "msg_2" "t2").length =
      c8Log.length + 1 ∧
    (addSingleMessage c8Log "hola" "wamid.A" "msg_2" "t2").map
        (fun m => m.whatsappMessageId) =
      c8Log.map (fun m => m.whatsappMessageId) ++ ["wamid.A"] :=
  c8_duplicate_append c8Log "hola" "wamid.A" "msg_2" "t2" (by decide)

def c9State : StateRec :=
  ⟨some "Ana", some "Lopez", some MaquinariaType.SOLDADORAS,
   [("amperaje", DVal.dstr "300")], some "acme.mx", some "venta",
   some "Ana Lopez", some "ACME", some "construccion", some "a@b.mx",
   some "555", true, some "CDMX",
   [⟨"user", "hola", some "", some "t1", some "lead", some "w1"⟩],
   "bot", none, some "hs1"⟩

/-- C9 witness: the round-trip theorem applied at a concrete record with a
stored message. -/
theorem c9_witness :
    (roundTripState "u1" "t0" c9State).nombre = c9State.nombre ∧
    (roundTripState "u1" "t0" c9State).apellido = c9State.apellido ∧
    (roundTripState "u1" "t0" c9State).tipo_maquinaria = c9State.tipo_maquinaria ∧
    (roundTripState "u1" "t0" c9State).detalles_maquinaria = c9State.detalles_maquinaria ∧
    (roundTripState "u1" "t0" c9State).sitio_web = c9State.sitio_web ∧
    (roundTripState "u1" "t0" c9State).uso_empresa_o_venta = c9State.uso_empresa_o_venta ∧
    (roundTripState "u1" "t0" c9State).nombre_completo = c9State.nombre_completo ∧
    (roundTripState "u1" "t0" c9State).nombre_empresa = c9State.nombre_empresa ∧
    (roundTripState "u1" "t0" c9State).giro_empresa = c9State.giro_empresa ∧
    (roundTripState "u1" "t0" c9State).correo = c9State.correo ∧
    (roundTripState "u1" "t0" c9State).telefono = c9State.telefono ∧
    (roundTripState "u1" "t0" c9State).completed = c9State.completed ∧
    (roundTripState "u1" "t0" c9State).lugar_requerimiento = c9State.lugar_requerimiento ∧
    (roundTripState "u1" "t0" c9State).conversation_mode = c9State.conversation_mode ∧
    (roundTripState "u1" "t0" c9State).asignado_asesor = c9State.asignado_asesor ∧
    (roundTripState "u1" "t0" c9State).hubspot_contact_id = c9State.hubspot_contact_id ∧
    (roundTripState "u1" "t0" c9State).messages.map msgCore =
      c9State.messages.map msgCore ∧
    (∀ t : MaquinariaType, MaquinariaType.ofValue? t.value = some t) :=
  c9_round_trip "u1" "t0" c9State (by
    intro m hm
    rcases List.mem_cons.mp hm with rfl | hm2
    · exact ⟨⟨"lead", rfl, rfl⟩, rfl⟩
    · exact absurd hm2 (List.not_mem_nil m))

/-- C10 witness: the blank-message theorem applied to a whitespace-only
message with a continuation that would visibly change everything. -/
theorem c10_witness :
    sendMessageGuard (fun st _ => ("x", ("extra", SVal.snull) :: st, true))
      emptyState "   " = ("", emptyState, false) :=
  c10_blank_message (fun st _ => ("x", ("extra", SVal.snull) :: st, true))
    emptyState "   " (Or.inr (by decide))

end WhatsappBot
